import Mathlib

/-!
Shallow embedding of the alert retrieval-and-reconciliation pipeline of the
SIEM backend (src/backend/es_integration/services.py and tasks.py), together
with theorems settling the specification claims about it.

Python strings are modelled as Lean String, manipulated through character
lists so that every definition evaluates by kernel reduction.  Python dicts
holding alert documents are modelled as fixed records covering the mapped
fields plus an opaque extra-payload list.  Database rows, the Elasticsearch
transports and the network are modelled as explicit state and outcome values
threaded through the functions that the source code runs.
-/

namespace SIEM

/-- Python str.lower, character-wise (the code only feeds it ASCII severity
words). -/
def strLower (s : String) : String := String.mk (s.data.map Char.toLower)

/-- Python str.strip: drop whitespace from both ends. -/
def strTrim (s : String) : String :=
  String.mk (((s.data.dropWhile Char.isWhitespace).reverse.dropWhile Char.isWhitespace).reverse)

/-- Python str.replace applied as raw_ts.replace of the letter Z by +00:00,
replacing every occurrence, as in aggregate_dashboard. -/
def replZ (s : String) : String :=
  String.mk (s.data.foldr
    (fun c acc => if c = 'Z' then '+' :: '0' :: '0' :: ':' :: '0' :: '0' :: acc else c :: acc) [])

/-- Decimal value of a digit list, as Python int() reads it. -/
def digitsToNat (cs : List Char) : Nat := cs.foldl (fun acc c => acc * 10 + (c.toNat - 48)) 0

/-- The numeric-string test and conversion used by _severity_to_tier:
s0.isdigit() or a leading minus sign followed by digits, then int(s0). -/
def pyDigitInt (s : String) : Option Int :=
  match (strTrim s).data with
  | [] => none
  | c :: cs =>
    if c = '-' then
      if !cs.isEmpty && cs.all Char.isDigit then some (-(Int.ofNat (digitsToNat cs))) else none
    else if (c :: cs).all Char.isDigit then some (Int.ofNat (digitsToNat (c :: cs))) else none

/-! ## Severity tiers (services.py, _severity_to_tier) -/

/-- A raw severity value on an alert document: absent (None), an int-valued
numeric (Python int(raw), floats arrive truncated), or a free-form string. -/
inductive RawSev
  | null
  | num (n : Int)
  | str (s : String)
deriving DecidableEq, Repr

/-- The string vocabularies of _severity_to_tier, verbatim from the source. -/
def criticalWords : List String :=
  ["critical", "crtical", "crit", "fatal", "emergency", "emerg", "panic"]

def highWords : List String := ["high", "error", "err", "severe"]

def mediumWords : List String := ["warning", "warn", "medium", "med", "moderate"]

def lowWords : List String := ["info", "informational", "notice", "low", "debug"]

/-- Numeric branch of _severity_to_tier: values up to 15 use the 0-15 scale,
larger values the 0-100 scale. -/
def numericTier (n : Int) : String :=
  if n ≤ 15 then
    if 12 ≤ n then "critical" else if 9 ≤ n then "high" else if 6 ≤ n then "medium" else "low"
  else
    if 90 ≤ n then "critical" else if 70 ≤ n then "high" else if 40 ≤ n then "medium" else "low"

/-- The function _severity_to_tier from services.py: None maps to unknown; int-like values
(including digit strings) go through the numeric scales; other strings are
stripped, lowercased and matched against the vocabularies. -/
def severityToTier : RawSev → String
  | .null => "unknown"
  | .num n => numericTier n
  | .str s =>
    match pyDigitInt s with
    | some n => numericTier n
    | none =>
      let t := strLower (strTrim s)
      if criticalWords.contains t then "critical"
      else if highWords.contains t then "high"
      else if mediumWords.contains t then "medium"
      else if lowWords.contains t then "low"
      else "unknown"

/-- The five tier names severityToTier can produce. -/
def tierNames : List String := ["critical", "high", "medium", "low", "unknown"]

/-- Count of input severities landing in a given tier (the severity-tier
histogram of aggregate_dashboard, bucket by bucket). -/
def tierHistogram (l : List RawSev) (t : String) : Nat :=
  (l.filter (fun r => severityToTier r = t)).length

/-- The scenario input of the claim: severities 12, 9, critical, info, None. -/
def scenarioSevs : List RawSev :=
  [.num 12, .num 9, .str "critical", .str "info", .null]

theorem severityToTier_mem_tierNames (r : RawSev) : severityToTier r ∈ tierNames := by
  cases r with
  | null => simp [severityToTier, tierNames]
  | num n =>
    simp only [severityToTier, numericTier, tierNames]
    split_ifs <;> simp
  | str s =>
    simp only [severityToTier, tierNames]
    split
    · simp only [numericTier]; split_ifs <;> simp
    · split_ifs <;> simp

/-- C3: the tier normalization policy.  Numeric severities at most 15 use the
0-15 scale (12 critical, 9 high, 6 medium thresholds); larger numerics use the
0-100 scale (90, 70, 40); the quoted vocabulary words map case-insensitively
to their tiers; unmatched strings and None map to unknown; and the scenario
[12, 9, critical, info, None] yields the histogram critical 2, high 1, low 1,
unknown 1 (medium 0). -/
theorem c3_severity_tier_policy :
    (∀ n : Int, n ≤ 15 → severityToTier (.num n) =
      (if 12 ≤ n then "critical" else if 9 ≤ n then "high"
       else if 6 ≤ n then "medium" else "low"))
    ∧ (∀ n : Int, 15 < n → severityToTier (.num n) =
      (if 90 ≤ n then "critical" else if 70 ≤ n then "high"
       else if 40 ≤ n then "medium" else "low"))
    ∧ severityToTier (.str "critical") = "critical"
    ∧ severityToTier (.str "FATAL") = "critical"
    ∧ severityToTier (.str "Emergency") = "critical"
    ∧ severityToTier (.str "high") = "high"
    ∧ severityToTier (.str "Error") = "high"
    ∧ severityToTier (.str "warning") = "medium"
    ∧ severityToTier (.str "MEDIUM") = "medium"
    ∧ severityToTier (.str "info") = "low"
    ∧ severityToTier (.str "low") = "low"
    ∧ severityToTier (.str "DEBUG") = "low"
    ∧ severityToTier (.str "gibberish") = "unknown"
    ∧ severityToTier .null = "unknown"
    ∧ tierHistogram scenarioSevs "critical" = 2
    ∧ tierHistogram scenarioSevs "high" = 1
    ∧ tierHistogram scenarioSevs "low" = 1
    ∧ tierHistogram scenarioSevs "unknown" = 1
    ∧ tierHistogram scenarioSevs "medium" = 0 := by
  refine ⟨?_, ?_, ?_⟩
  · intro n hn
    simp [severityToTier, numericTier, hn]
  · refine fun n hn => ?_
    have h : ¬ n ≤ 15 := by omega
    simp [severityToTier, numericTier, h]
  · refine ⟨?_, ?_, ?_, ?_, ?_, ?_, ?_, ?_, ?_, ?_, ?_, ?_, ?_, ?_, ?_, ?_, ?_⟩ <;> decide

/-- Witness for c3_severity_tier_policy: the numeric clauses applied at 12 and
at 95. -/
theorem c3_severity_tier_policy_witness :
    severityToTier (.num 12) = "critical" ∧ severityToTier (.num 95) = "critical" := by
  constructor
  · have h := c3_severity_tier_policy.1 12 (by omega)
    simpa using h
  · have h := c3_severity_tier_policy.2.1 95 (by omega)
    simpa using h

/-! ## Documents, cache rows and the upsert step
(services.py _upsert_docs_to_db; tasks.py sync_es_alerts_to_db loop) -/

/-- An alert document as fetched from the live source: the mapped fields of
the cache model, an opaque extra payload for unmodelled keys, plus a flag
telling whether this document's per-document transaction raises a database
error (the IntegrityError/DatabaseError outcome of the write, which the code
catches per document). -/
structure Doc where
  alert_id : Option String
  tenant_id : Option String
  timestamp : Option String
  severity : Option String
  message : Option String
  source_index : Option String
  rule_id : Option String
  title : Option String
  status : Option Int
  description : Option String
  category : Option String
  extra : List (String × String) := []
  dbFails : Bool := false
deriving DecidableEq, Repr

/-- A cache row of es_integration_alert.  The event timestamp is stored
parsed (an abstract instant, None when absent or unparsable). -/
structure Row where
  id : Nat
  alert_id : Option String
  tenant_id : Option String
  timestamp : Option Int
  severity : Option String
  message : Option String
  source_index : Option String
  rule_id : Option String
  title : Option String
  status : Option Int
  description : Option String
  category : Option String
  source_data : Doc
deriving DecidableEq, Repr

/-- The durable cache: its rows plus the next autoincrement primary key. -/
structure DB where
  rows : List Row
  nextId : Nat
deriving DecidableEq, Repr

/-- The defaults dict both upsert loops build: every mapped column taken from
the document (a full replace), source_data keeping the whole document.
parseTs stands for _parse_es_timestamp on string values (None parses to
None). -/
def docDefaults (parseTs : String → Option Int) (doc : Doc) (tenant : Option String)
    (i : Nat) (aid : Option String) : Row :=
  { id := i
    alert_id := aid
    tenant_id := tenant
    timestamp := doc.timestamp.bind parseTs
    severity := doc.severity
    message := doc.message
    source_index := doc.source_index
    rule_id := doc.rule_id
    title := doc.title
    status := doc.status
    description := doc.description
    category := doc.category
    source_data := doc }

/-- Alert.objects.filter(alert_id=aid): rows whose stored identifier equals
the given one. -/
def rowsWithAid (rows : List Row) (aid : String) : List Row :=
  rows.filter (fun r => decide (r.alert_id = some aid))

/-- Keep the row with the larger primary key (order_by minus id, first). -/
def pickNewer (acc : Option Row) (r : Row) : Option Row :=
  match acc with
  | none => some r
  | some b => if b.id < r.id then some r else some b

/-- filter(alert_id=aid).order_by(minus id).first(): the matching row with the
greatest primary key, if any. -/
def latestWithId (rows : List Row) (aid : String) : Option Row :=
  (rowsWithAid rows aid).foldl pickNewer none

/-- existing.save(update_fields=defaults): overwrite the row holding the given
primary key in place. -/
def updateRow (rows : List Row) (targetId : Nat) (new : Row) : List Row :=
  rows.map (fun r => if r.id = targetId then new else r)

/-- Alert.objects.create(...): append a fresh row under the next primary
key. -/
def appendFresh (parseTs : String → Option Int) (tenant : Option String) (db : DB)
    (doc : Doc) (aid : Option String) : DB :=
  { rows := db.rows ++ [docDefaults parseTs doc tenant db.nextId aid], nextId := db.nextId + 1 }

/-- What happened to one document inside its transaction. -/
inductive UpsertOutcome
  | created
  | updated
  | failed
deriving DecidableEq, Repr

/-- The shared per-document upsert body: a falsy (absent or empty) alert_id
always creates a fresh row stored with a null identifier; a truthy alert_id
overwrites the most recent row carrying it, or creates it; a database error
leaves the cache untouched. -/
def upsertDocCore (parseTs : String → Option Int) (tenant : Option String) (db : DB)
    (doc : Doc) : DB × UpsertOutcome :=
  if doc.dbFails then (db, .failed)
  else
    match doc.alert_id with
    | some aid =>
      if aid = "" then (appendFresh parseTs tenant db doc none, .created)
      else
        match latestWithId db.rows aid with
        | some ex =>
          ({ db with
             rows := updateRow db.rows ex.id (docDefaults parseTs doc tenant ex.id (some aid)) },
           .updated)
        | none => (appendFresh parseTs tenant db doc (some aid), .created)
    | none => (appendFresh parseTs tenant db doc none, .created)

/-- One document of _upsert_docs_to_db (services.py): tenant taken from the
document itself. -/
def upsertDoc (parseTs : String → Option Int) (db : DB) (doc : Doc) : DB :=
  (upsertDocCore parseTs doc.tenant_id db doc).1

/-- The function _upsert_docs_to_db over a batch. -/
def upsertMany (parseTs : String → Option Int) (db : DB) (docs : List Doc) : DB :=
  docs.foldl (upsertDoc parseTs) db

/-- Primary keys are unique and below the autoincrement counter. -/
def IdsOk (db : DB) : Prop :=
  (db.rows.map Row.id).Nodup ∧ ∀ r ∈ db.rows, r.id < db.nextId

/-- The cache invariant of the claim, as the code maintains it: at most one
row per truthy (nonempty) external identifier. -/
def CacheInv (db : DB) : Prop :=
  ∀ aid : String, aid ≠ "" → (rowsWithAid db.rows aid).length ≤ 1

theorem foldl_pickNewer_some (l : List Row) (b : Row) :
    ∃ r, l.foldl pickNewer (some b) = some r ∧ b.id ≤ r.id ∧ (r = b ∨ r ∈ l) ∧
      ∀ x ∈ l, x.id ≤ r.id := by
  induction l generalizing b with
  | nil => exact ⟨b, rfl, le_refl _, Or.inl rfl, by simp⟩
  | cons a t ih =>
    by_cases h : b.id < a.id
    · obtain ⟨r, hr, hle, hmem, hbound⟩ := ih a
      refine ⟨r, ?_, by omega, ?_, ?_⟩
      · simpa [pickNewer, h] using hr
      · rcases hmem with h1 | h1
        · exact Or.inr (by simp [h1])
        · exact Or.inr (by simp [h1])
      · intro x hx
        rcases List.mem_cons.mp hx with h1 | h1
        · subst h1; omega
        · exact hbound x h1
    · obtain ⟨r, hr, hle, hmem, hbound⟩ := ih b
      refine ⟨r, ?_, hle, ?_, ?_⟩
      · simpa [pickNewer, h] using hr
      · rcases hmem with h1 | h1
        · exact Or.inl h1
        · exact Or.inr (by simp [h1])
      · intro x hx
        rcases List.mem_cons.mp hx with h1 | h1
        · subst h1; omega
        · exact hbound x h1

theorem latestWithId_eq_none {rows : List Row} {aid : String} :
    latestWithId rows aid = none ↔ rowsWithAid rows aid = [] := by
  unfold latestWithId
  cases h : rowsWithAid rows aid with
  | nil => simp
  | cons a t =>
    obtain ⟨r, hr, _, _, _⟩ := foldl_pickNewer_some t a
    simp only [List.foldl_cons, pickNewer, hr]
    simp

theorem latestWithId_spec {rows : List Row} {aid : String} {ex : Row}
    (h : latestWithId rows aid = some ex) :
    ex ∈ rowsWithAid rows aid ∧ ∀ x ∈ rowsWithAid rows aid, x.id ≤ ex.id := by
  unfold latestWithId at h
  cases hl : rowsWithAid rows aid with
  | nil => rw [hl] at h; simp at h
  | cons a t =>
    rw [hl] at h
    obtain ⟨r, hr, hle, hmem, hbound⟩ := foldl_pickNewer_some t a
    simp only [List.foldl_cons, pickNewer, hr] at h
    obtain rfl : r = ex := by injection h
    constructor
    · rcases hmem with h1 | h1
      · simp [h1]
      · simp [h1]
    · intro x hx
      rcases List.mem_cons.mp hx with h1 | h1
      · subst h1; exact hle
      · exact hbound x h1

theorem eq_singleton_of_length_le_one {α : Type} {l : List α} {a : α}
    (h1 : l.length ≤ 1) (h2 : a ∈ l) : l = [a] := by
  match l with
  | [] => simp at h2
  | [x] => obtain rfl : a = x := by simpa using h2
           rfl
  | x :: y :: t => simp at h1

theorem map_self {α : Type} {l : List α} {f : α → α} (h : ∀ x ∈ l, f x = x) :
    l.map f = l := by
  induction l with
  | nil => rfl
  | cons a t ih => simp [h a (by simp), ih (fun x hx => h x (by simp [hx]))]

theorem ids_ne_of_split {s t : List Row} {ex : Row}
    (h : ((s ++ ex :: t).map Row.id).Nodup) :
    (∀ r ∈ s, r.id ≠ ex.id) ∧ (∀ r ∈ t, r.id ≠ ex.id) := by
  rw [List.map_append, List.map_cons, List.nodup_append] at h
  obtain ⟨h1, h2, h3⟩ := h
  constructor
  · intro r hr he
    exact h3 (List.mem_map_of_mem Row.id hr) (by rw [he]; exact List.mem_cons_self _ _)
  · intro r hr he
    have h4 : ex.id ∉ t.map Row.id := (List.nodup_cons.mp h2).1
    exact h4 (he ▸ List.mem_map_of_mem Row.id hr)

theorem updateRow_split {s t : List Row} {ex new : Row}
    (hs : ∀ r ∈ s, r.id ≠ ex.id) (ht : ∀ r ∈ t, r.id ≠ ex.id) :
    updateRow (s ++ ex :: t) ex.id new = s ++ new :: t := by
  unfold updateRow
  rw [List.map_append, List.map_cons]
  rw [map_self (fun r hr => if_neg (hs r hr)), map_self (fun r hr => if_neg (ht r hr))]
  simp

theorem updateRow_length (rows : List Row) (tid : Nat) (new : Row) :
    (updateRow rows tid new).length = rows.length := by
  simp [updateRow]

theorem updateRow_map_id {rows : List Row} {tid : Nat} {new : Row} (h : new.id = tid) :
    (updateRow rows tid new).map Row.id = rows.map Row.id := by
  unfold updateRow
  rw [List.map_map]
  apply List.map_congr_left
  intro r _
  by_cases hr : r.id = tid <;> simp [hr, h]

theorem rowsWithAid_append (l1 l2 : List Row) (aid : String) :
    rowsWithAid (l1 ++ l2) aid = rowsWithAid l1 aid ++ rowsWithAid l2 aid := by
  simp [rowsWithAid]

theorem docDefaults_alert_id (parseTs : String → Option Int) (doc : Doc)
    (tenant : Option String) (i : Nat) (aid : Option String) :
    (docDefaults parseTs doc tenant i aid).alert_id = aid := rfl

theorem appendFresh_ids {parseTs : String → Option Int} {tenant : Option String}
    {db : DB} {doc : Doc} {aid : Option String} (hIds : IdsOk db) :
    IdsOk (appendFresh parseTs tenant db doc aid) := by
  obtain ⟨hn, hb⟩ := hIds
  constructor
  · simp only [appendFresh, List.map_append, List.map_cons, List.map_nil]
    rw [List.nodup_append]
    refine ⟨hn, by simp, ?_⟩
    intro a ha hmem
    obtain rfl : a = db.nextId := by simpa [docDefaults] using hmem
    obtain ⟨r, hr, hrid⟩ := List.mem_map.mp ha
    have := hb r hr
    omega
  · intro r hr
    simp only [appendFresh, List.mem_append, List.mem_singleton] at hr
    rcases hr with h1 | h1
    · have := hb r h1; simp [appendFresh]; omega
    · subst h1; simp [appendFresh, docDefaults]

/-- Main shape lemma for a truthy-identifier upsert: the cache afterwards has
exactly one row under that identifier, carrying every mapped field of the
document; rows under other identifiers are untouched; primary keys stay
well-formed; a miss appends under the fresh key while a hit rewrites the most
recent matching row in place, preserving the row count. -/
theorem upsertDocCore_truthy (parseTs : String → Option Int) (tenant : Option String)
    (db : DB) (doc : Doc) (aid : String)
    (hid : doc.alert_id = some aid) (hne : aid ≠ "") (hok : doc.dbFails = false)
    (hInv : CacheInv db) (hIds : IdsOk db) :
    ∃ i : Nat,
      rowsWithAid (upsertDocCore parseTs tenant db doc).1.rows aid =
        [docDefaults parseTs doc tenant i (some aid)]
      ∧ (∀ b, b ≠ aid → rowsWithAid (upsertDocCore parseTs tenant db doc).1.rows b =
          rowsWithAid db.rows b)
      ∧ IdsOk (upsertDocCore parseTs tenant db doc).1
      ∧ (latestWithId db.rows aid = none →
          (upsertDocCore parseTs tenant db doc).1.rows =
            db.rows ++ [docDefaults parseTs doc tenant db.nextId (some aid)])
      ∧ (∀ ex, latestWithId db.rows aid = some ex →
          (upsertDocCore parseTs tenant db doc).1.rows.length = db.rows.length ∧ i = ex.id) := by
  cases hl : latestWithId db.rows aid with
  | none =>
    have hempty : rowsWithAid db.rows aid = [] := latestWithId_eq_none.mp hl
    have hdb : (upsertDocCore parseTs tenant db doc).1 =
        appendFresh parseTs tenant db doc (some aid) := by
      simp [upsertDocCore, hok, hid, hne, hl]
    refine ⟨db.nextId, ?_, ?_, ?_, ?_, ?_⟩
    · rw [hdb]
      simp only [appendFresh, rowsWithAid_append, hempty]
      simp [rowsWithAid, docDefaults]
    · intro b hb
      rw [hdb]
      simp only [appendFresh, rowsWithAid_append]
      have : rowsWithAid [docDefaults parseTs doc tenant db.nextId (some aid)] b = [] := by
        simp [rowsWithAid, docDefaults, hb, Ne.symm hb]
      simp [this]
    · rw [hdb]; exact appendFresh_ids hIds
    · intro _; rw [hdb]; rfl
    · intro ex hex; simp at hex
  | some ex =>
    obtain ⟨hexmem, hexmax⟩ := latestWithId_spec hl
    have hexrow : ex ∈ db.rows ∧ ex.alert_id = some aid := by
      have := List.mem_filter.mp hexmem
      simpa using this
    have hsingle : rowsWithAid db.rows aid = [ex] :=
      eq_singleton_of_length_le_one (hInv aid hne) hexmem
    obtain ⟨s, t, hsplit⟩ := List.append_of_mem hexrow.1
    have hnodup : ((s ++ ex :: t).map Row.id).Nodup := hsplit ▸ hIds.1
    obtain ⟨hs, ht⟩ := ids_ne_of_split hnodup
    have hupd : updateRow db.rows ex.id (docDefaults parseTs doc tenant ex.id (some aid)) =
        s ++ docDefaults parseTs doc tenant ex.id (some aid) :: t := by
      rw [hsplit]; exact updateRow_split hs ht
    have hdb : (upsertDocCore parseTs tenant db doc).1.rows =
        s ++ docDefaults parseTs doc tenant ex.id (some aid) :: t := by
      simp [upsertDocCore, hok, hid, hne, hl, hupd]
    have hfilters : rowsWithAid s aid = [] ∧ rowsWithAid t aid = [] := by
      have h1 : rowsWithAid db.rows aid =
          rowsWithAid s aid ++ ex :: rowsWithAid t aid := by
        rw [hsplit, rowsWithAid_append]
        simp [rowsWithAid, hexrow.2]
      rw [hsingle] at h1
      have h2 := congrArg List.length h1
      simp at h2
      constructor
      · exact List.length_eq_zero.mp (by omega)
      · exact List.length_eq_zero.mp (by omega)
    refine ⟨ex.id, ?_, ?_, ?_, ?_, ?_⟩
    · rw [hdb]
      have hcons : rowsWithAid (docDefaults parseTs doc tenant ex.id (some aid) :: t) aid =
          docDefaults parseTs doc tenant ex.id (some aid) :: rowsWithAid t aid := by
        simp [rowsWithAid, docDefaults]
      rw [rowsWithAid_append, hcons, hfilters.1, hfilters.2]
      rfl
    · intro b hb
      rw [hdb, hsplit, rowsWithAid_append, rowsWithAid_append]
      have h1 : rowsWithAid (docDefaults parseTs doc tenant ex.id (some aid) :: t) b =
          rowsWithAid t b := by
        simp [rowsWithAid, docDefaults, Ne.symm hb]
      have h2 : rowsWithAid (ex :: t) b = rowsWithAid t b := by
        simp [rowsWithAid, hexrow.2, Ne.symm hb]
      rw [h1, h2]
    · constructor
      · have hmap : (upsertDocCore parseTs tenant db doc).1.rows.map Row.id =
            db.rows.map Row.id := by
          have : (upsertDocCore parseTs tenant db doc).1.rows =
              updateRow db.rows ex.id (docDefaults parseTs doc tenant ex.id (some aid)) := by
            simp [upsertDocCore, hok, hid, hne, hl]
          rw [this]
          exact updateRow_map_id rfl
        rw [hmap]; exact hIds.1
      · intro r hr
        have hnext : (upsertDocCore parseTs tenant db doc).1.nextId = db.nextId := by
          simp [upsertDocCore, hok, hid, hne, hl]
        rw [hnext]
        rw [hdb] at hr
        simp only [List.mem_append, List.mem_cons] at hr
        rcases hr with h1 | h1 | h1
        · exact hIds.2 r (by rw [hsplit]; simp [h1])
        · have := hIds.2 ex hexrow.1
          rw [h1]; simpa [docDefaults] using this
        · exact hIds.2 r (by rw [hsplit]; simp [h1])
    · intro hno; simp at hno
    · intro ex2 hex2
      obtain rfl : ex = ex2 := by injection hex2
      constructor
      · rw [hdb, hsplit]; simp
      · rfl

/-- Fresh inserts with a falsy identifier leave every truthy-identifier
bucket unchanged. -/
theorem appendFresh_rowsWithAid {parseTs : String → Option Int} {tenant : Option String}
    {db : DB} {doc : Doc} (b : String) :
    rowsWithAid (appendFresh parseTs tenant db doc none).rows b = rowsWithAid db.rows b := by
  simp only [appendFresh, rowsWithAid_append]
  have : rowsWithAid [docDefaults parseTs doc tenant db.nextId none] b = [] := by
    simp [rowsWithAid, docDefaults]
  simp [this]

/-- The per-document upsert preserves both invariants, whatever the document
is. -/
theorem upsertDocCore_preserves (parseTs : String → Option Int) (tenant : Option String)
    (db : DB) (doc : Doc) (hInv : CacheInv db) (hIds : IdsOk db) :
    CacheInv (upsertDocCore parseTs tenant db doc).1 ∧
      IdsOk (upsertDocCore parseTs tenant db doc).1 := by
  by_cases hf : doc.dbFails
  · simp [upsertDocCore, hf]; exact ⟨hInv, hIds⟩
  · have hf' : doc.dbFails = false := by simpa using hf
    cases hid : doc.alert_id with
    | none =>
      have hdb : (upsertDocCore parseTs tenant db doc).1 =
          appendFresh parseTs tenant db doc none := by
        simp [upsertDocCore, hf', hid]
      rw [hdb]
      refine ⟨?_, appendFresh_ids hIds⟩
      intro b hb
      rw [appendFresh_rowsWithAid]
      exact hInv b hb
    | some aid =>
      by_cases hne : aid = ""
      · subst hne
        have hdb : (upsertDocCore parseTs tenant db doc).1 =
            appendFresh parseTs tenant db doc none := by
          simp [upsertDocCore, hf', hid]
        rw [hdb]
        refine ⟨?_, appendFresh_ids hIds⟩
        intro b hb
        rw [appendFresh_rowsWithAid]
        exact hInv b hb
      · obtain ⟨i, hone, hother, hids, _, _⟩ :=
          upsertDocCore_truthy parseTs tenant db doc aid hid hne hf' hInv hIds
        refine ⟨?_, hids⟩
        intro b hb
        by_cases hba : b = aid
        · subst hba; rw [hone]; simp
        · rw [hother b hba]; exact hInv b hb

/-- A trivial timestamp parser used in closed evaluations whose inputs carry
no timestamp (the parse result is irrelevant there). -/
def noTs : String → Option Int := fun _ => none

/-- The empty cache. -/
def emptyDB : DB := ⟨[], 0⟩

/-- A document whose external identifier is the empty string (non-null), with
a distinguishing payload. -/
def emptyIdDoc (m : String) : Doc :=
  { alert_id := some ""
    tenant_id := some "t1"
    timestamp := none
    severity := none
    message := some m
    source_index := none
    rule_id := none
    title := none
    status := none
    description := none
    category := none }

/-- C2 counterexample: a document carrying the non-null identifier given by
the empty string is not merged on a second upsert — the code tests Python
truthiness, not non-nullness, so both upserts insert fresh rows (stored with
a null identifier) and two rows remain where the claim requires exactly
one. -/
theorem c2_counterexample :
    (upsertMany noTs emptyDB [emptyIdDoc "p1", emptyIdDoc "p2"]).rows.length = 2
    ∧ (upsertMany noTs emptyDB [emptyIdDoc "p1", emptyIdDoc "p2"]).rows.map Row.alert_id =
        [none, none]
    ∧ (upsertMany noTs emptyDB [emptyIdDoc "p1", emptyIdDoc "p2"]).rows.map Row.message =
        [some "p1", some "p2"] := by
  refine ⟨?_, ?_, ?_⟩ <;> rfl

/-- C2 (amended): upsert keeps at most one cache row per truthy (non-null and
nonempty) external identifier.  For every document with such an identifier the
upsert fully replaces the mapped fields of the most recent matching row or
creates the row; upserting the same truthy identifier twice with different
payloads leaves exactly one row under it, reflecting the second payload;
documents with a null (or empty, which the code treats alike) identifier are
always inserted as fresh rows and never merged; and both cache invariants are
preserved by every upsert. -/
theorem c2_upsert_identity (parseTs : String → Option Int) :
    (∀ db doc, CacheInv db → IdsOk db →
      CacheInv (upsertDoc parseTs db doc) ∧ IdsOk (upsertDoc parseTs db doc))
    ∧ (∀ db doc, doc.alert_id = none → doc.dbFails = false →
        (upsertDoc parseTs db doc).rows =
          db.rows ++ [docDefaults parseTs doc doc.tenant_id db.nextId none])
    ∧ (∀ db d1 d2 aid, aid ≠ "" →
        d1.alert_id = some aid → d2.alert_id = some aid →
        d1.dbFails = false → d2.dbFails = false →
        CacheInv db → IdsOk db →
        ∃ i : Nat,
          rowsWithAid (upsertMany parseTs db [d1, d2]).rows aid =
            [docDefaults parseTs d2 d2.tenant_id i (some aid)]) := by
  refine ⟨?_, ?_, ?_⟩
  · intro db doc hInv hIds
    exact upsertDocCore_preserves parseTs doc.tenant_id db doc hInv hIds
  · intro db doc hid hok
    simp [upsertDoc, upsertDocCore, hid, hok, appendFresh]
  · intro db d1 d2 aid hne hid1 hid2 hok1 hok2 hInv hIds
    obtain ⟨i1, hone1, _, hids1, _, _⟩ :=
      upsertDocCore_truthy parseTs d1.tenant_id db d1 aid hid1 hne hok1 hInv hIds
    have hInv1 : CacheInv (upsertDoc parseTs db d1) ∧ IdsOk (upsertDoc parseTs db d1) :=
      upsertDocCore_preserves parseTs d1.tenant_id db d1 hInv hIds
    obtain ⟨i2, hone2, _, _, _, _⟩ :=
      upsertDocCore_truthy parseTs d2.tenant_id (upsertDoc parseTs db d1) d2 aid hid2 hne hok2
        hInv1.1 hInv1.2
    exact ⟨i2, by simpa [upsertMany, upsertDoc] using hone2⟩

/-- Witness for c2_upsert_identity: two upserts of identifier a1 with
different messages against the empty cache leave exactly one row, carrying
the second message. -/
theorem c2_upsert_identity_witness :
    ∃ i : Nat,
      rowsWithAid (upsertMany noTs emptyDB
        [{ emptyIdDoc "p1" with alert_id := some "a1" },
         { emptyIdDoc "p2" with alert_id := some "a1" }]).rows "a1" =
      [docDefaults noTs { emptyIdDoc "p2" with alert_id := some "a1" }
        (some "t1") i (some "a1")] := by
  have h := (c2_upsert_identity noTs).2.2 emptyDB
    { emptyIdDoc "p1" with alert_id := some "a1" }
    { emptyIdDoc "p2" with alert_id := some "a1" } "a1"
    (by decide) rfl rfl rfl rfl
    (by intro aid _; simp [emptyDB, rowsWithAid])
    (by constructor <;> simp [emptyDB])
  simpa [emptyIdDoc] using h

/-- C10: the upsert lookup matches by external identifier alone, with no
tenant filter.  If the cache holds a row under a truthy identifier for tenant
A, upserting a document with the same identifier on behalf of tenant B
rewrites that same row — the row count is unchanged, the single row under the
identifier now carries tenant B and every other mapped field of B's document
— instead of creating a separate row per tenant. -/
theorem c10_cross_tenant_overwrite (parseTs : String → Option Int)
    (db : DB) (r0 : Row) (aid : String) (docB : Doc)
    (hne : aid ≠ "") (hmem : r0 ∈ db.rows) (hr0 : r0.alert_id = some aid)
    (hidB : docB.alert_id = some aid) (hokB : docB.dbFails = false)
    (hInv : CacheInv db) (hIds : IdsOk db) :
    (upsertDoc parseTs db docB).rows.length = db.rows.length
    ∧ rowsWithAid (upsertDoc parseTs db docB).rows aid =
        [docDefaults parseTs docB docB.tenant_id r0.id (some aid)] := by
  have hmemf : r0 ∈ rowsWithAid db.rows aid := by
    simp [rowsWithAid, List.mem_filter, hmem, hr0]
  have hsingle : rowsWithAid db.rows aid = [r0] :=
    eq_singleton_of_length_le_one (hInv aid hne) hmemf
  have hlatest : latestWithId db.rows aid = some r0 := by
    unfold latestWithId
    rw [hsingle]
    rfl
  obtain ⟨i, hone, _, _, _, hsome⟩ :=
    upsertDocCore_truthy parseTs docB.tenant_id db docB aid hidB hne hokB hInv hIds
  obtain ⟨hlen, hi⟩ := hsome r0 hlatest
  subst hi
  exact ⟨hlen, hone⟩

/-- Tenant tA's cached row under identifier a1, used in the C10 witness. -/
def rowTenantA : Row :=
  docDefaults noTs
    { (emptyIdDoc "p1") with alert_id := some "a1", tenant_id := some "tA" }
    (some "tA") 0 (some "a1")

/-- Tenant tB's incoming document carrying the same identifier a1. -/
def docTenantB : Doc :=
  { (emptyIdDoc "p2") with alert_id := some "a1", tenant_id := some "tB" }

/-- A one-row cache owned by tenant tA. -/
def dbTenantA : DB := ⟨[rowTenantA], 1⟩

/-- Witness for c10_cross_tenant_overwrite: a cache holding one row of tenant
tA under identifier a1, upserted with tenant tB's document for a1, ends with
one row under a1 whose tenant is tB. -/
theorem c10_cross_tenant_overwrite_witness :
    (upsertDoc noTs dbTenantA docTenantB).rows.length = 1
    ∧ rowsWithAid (upsertDoc noTs dbTenantA docTenantB).rows "a1" =
        [docDefaults noTs docTenantB (some "tB") 0 (some "a1")] := by
  have h := c10_cross_tenant_overwrite noTs dbTenantA rowTenantA "a1" docTenantB
    (by decide) (by simp [dbTenantA]) rfl rfl rfl
    (by
      intro aid _
      have hle := List.length_filter_le
        (fun r => decide (r.alert_id = some aid)) dbTenantA.rows
      simpa [rowsWithAid, dbTenantA] using hle)
    (by constructor <;> simp [dbTenantA, rowTenantA, docDefaults])
  have h2 : rowTenantA.id = 0 := rfl
  have h3 : docTenantB.tenant_id = some "tB" := rfl
  rw [h2, h3] at h
  simpa [dbTenantA] using h

/-! ## HTTP transport retries (services.py _http_search, _get_http_timeouts) -/

/-- Outcome of one HTTP POST attempt against the search endpoint. -/
inductive AttemptOutcome
  | success (hits : List Doc)
  | timeout
  | httpError
  | netError
deriving DecidableEq, Repr

/-- The trace one _http_search run leaves: its result, how many attempts it
made, and the backoff sleeps it performed in order, in milliseconds. -/
structure HttpTrace where
  hits : List Doc
  attempts : Nat
  sleepsMs : List Nat
deriving DecidableEq, Repr

/-- min of half a second times the 1-based attempt number and 2 seconds, in
milliseconds; attempt here is the 0-based loop index as in the source. -/
def backoffMs (attempt : Nat) : Nat := min (500 * (attempt + 1)) 2000

/-- The retry loop of _http_search.  The list holds the network's outcome for
each of the retries+1 loop iterations; a success returns the hits, an
HTTP-level error (raise_for_status) returns the empty list at once, a timeout
or network error falls through to the backoff sleep and the next iteration,
and the final iteration failing ends the loop with the empty list. -/
def httpRun : List AttemptOutcome → Nat → HttpTrace
  | [], _ => ⟨[], 0, []⟩
  | o :: rest, attempt =>
    match o with
    | .success hits => ⟨hits, 1, []⟩
    | .httpError => ⟨[], 1, []⟩
    | _ =>
      if rest.isEmpty then ⟨[], 1, []⟩
      else
        let t := httpRun rest (attempt + 1)
        ⟨t.hits, t.attempts + 1, backoffMs attempt :: t.sleepsMs⟩

/-- The function _http_search: run the loop over attempts 0..retries. -/
def httpSearch (oc : Nat → AttemptOutcome) (retries : Nat) : HttpTrace :=
  httpRun ((List.range (retries + 1)).map oc) 0

/-- int(os.getenv ES_HTTP_RETRIES default 2): 2 when absent or unparsable. -/
def esHttpRetries (env : Option Nat) : Nat := env.getD 2

/-- The function _get_http_timeouts: (connect, read) in seconds, each independently taken
from its environment variable when it parses, with defaults 5 and the
caller's default read timeout. -/
def getHttpTimeouts (envConnect envRead : Option Rat) (defaultRead : Rat) : Rat × Rat :=
  (envConnect.getD 5, envRead.getD defaultRead)

/-- The read timeout _http_search is invoked with at both call sites. -/
def httpSearchDefaultRead : Rat := 30

theorem httpRun_retryable_cons {o : AttemptOutcome} (ho : o = .timeout ∨ o = .netError)
    (rest : List AttemptOutcome) (hrest : rest.isEmpty = false) (attempt : Nat) :
    httpRun (o :: rest) attempt =
      ⟨(httpRun rest (attempt + 1)).hits, (httpRun rest (attempt + 1)).attempts + 1,
        backoffMs attempt :: (httpRun rest (attempt + 1)).sleepsMs⟩ := by
  rcases ho with h | h <;> subst h <;> simp [httpRun, hrest]

theorem httpRun_spec_retry_step {o : AttemptOutcome} (ho : o = .timeout ∨ o = .netError)
    {rest : List AttemptOutcome} (hrest' : rest.isEmpty = false) (attempt : Nat)
    (h1 : 1 ≤ (httpRun rest (attempt + 1)).attempts)
    (h2 : (httpRun rest (attempt + 1)).attempts ≤ rest.length)
    (h3 : (httpRun rest (attempt + 1)).sleepsMs =
      (List.range ((httpRun rest (attempt + 1)).attempts - 1)).map
        (fun k => backoffMs (attempt + 1 + k)))
    (h4 : ∀ i, i + 1 < (httpRun rest (attempt + 1)).attempts →
      rest[i]? = some .timeout ∨ rest[i]? = some .netError)
    (h5 : rest[(httpRun rest (attempt + 1)).attempts - 1]? = some .httpError →
      (httpRun rest (attempt + 1)).hits = []) :
    1 ≤ (httpRun (o :: rest) attempt).attempts
    ∧ (httpRun (o :: rest) attempt).attempts ≤ (o :: rest).length
    ∧ (httpRun (o :: rest) attempt).sleepsMs =
        (List.range ((httpRun (o :: rest) attempt).attempts - 1)).map
          (fun k => backoffMs (attempt + k))
    ∧ (∀ i, i + 1 < (httpRun (o :: rest) attempt).attempts →
        (o :: rest)[i]? = some .timeout ∨ (o :: rest)[i]? = some .netError)
    ∧ ((o :: rest)[(httpRun (o :: rest) attempt).attempts - 1]? = some .httpError →
        (httpRun (o :: rest) attempt).hits = []) := by
  have hrun := httpRun_retryable_cons ho rest hrest' attempt
  obtain ⟨m, hm⟩ : ∃ m, (httpRun rest (attempt + 1)).attempts = m + 1 :=
    ⟨(httpRun rest (attempt + 1)).attempts - 1, by omega⟩
  refine ⟨?_, ?_, ?_, ?_, ?_⟩
  · rw [hrun]; exact Nat.le_add_left 1 _
  · rw [hrun]; exact Nat.succ_le_succ h2
  · rw [hrun]
    show backoffMs attempt :: (httpRun rest (attempt + 1)).sleepsMs =
      (List.range ((httpRun rest (attempt + 1)).attempts + 1 - 1)).map
        (fun k => backoffMs (attempt + k))
    rw [Nat.add_sub_cancel, h3, hm]
    simp only [Nat.add_sub_cancel]
    rw [List.range_succ_eq_map]
    simp only [List.map_cons, List.map_map]
    refine List.cons_eq_cons.mpr ⟨by simp, ?_⟩
    apply List.map_congr_left
    intro k _
    simp only [Function.comp_apply]
    have hk : attempt + 1 + k = attempt + Nat.succ k := by omega
    rw [hk]
  · intro i hi
    rw [hrun] at hi
    have hi2 : i + 1 < (httpRun rest (attempt + 1)).attempts + 1 := hi
    cases i with
    | zero =>
      rcases ho with h | h <;> subst h <;> simp
    | succ j =>
      have h6 := h4 j (by omega)
      rcases h6 with h6 | h6 <;> simp [h6]
  · intro h
    rw [hrun] at h ⊢
    have h7 : (o :: rest)[(httpRun rest (attempt + 1)).attempts + 1 - 1]? =
        some AttemptOutcome.httpError := h
    rw [Nat.add_sub_cancel, hm] at h7
    rw [List.getElem?_cons_succ] at h7
    have h8 : rest[(httpRun rest (attempt + 1)).attempts - 1]? =
        some AttemptOutcome.httpError := by
      rw [hm]; simpa using h7
    exact h5 h8

theorem httpRun_spec (outcomes : List AttemptOutcome) :
    ∀ attempt, outcomes ≠ [] →
      1 ≤ (httpRun outcomes attempt).attempts
      ∧ (httpRun outcomes attempt).attempts ≤ outcomes.length
      ∧ (httpRun outcomes attempt).sleepsMs =
          (List.range ((httpRun outcomes attempt).attempts - 1)).map
            (fun k => backoffMs (attempt + k))
      ∧ (∀ i, i + 1 < (httpRun outcomes attempt).attempts →
          outcomes[i]? = some .timeout ∨ outcomes[i]? = some .netError)
      ∧ (outcomes[(httpRun outcomes attempt).attempts - 1]? = some .httpError →
          (httpRun outcomes attempt).hits = []) := by
  induction outcomes with
  | nil => intro _ h; exact absurd rfl h
  | cons o rest ih =>
    intro attempt _
    match ho : o with
    | .success hits =>
      refine ⟨by simp [httpRun], by simp [httpRun], by simp [httpRun], ?_, ?_⟩
      · intro i hi; simp [httpRun] at hi
      · intro h; simp [httpRun] at h
    | .httpError =>
      refine ⟨by simp [httpRun], by simp [httpRun], by simp [httpRun], ?_, ?_⟩
      · intro i hi; simp [httpRun] at hi
      · intro _; simp [httpRun]
    | .timeout =>
      by_cases hrest : rest.isEmpty
      · refine ⟨by simp [httpRun, hrest], by simp [httpRun, hrest], by simp [httpRun, hrest],
          ?_, ?_⟩
        · intro i hi; simp [httpRun, hrest] at hi
        · intro h; simp [httpRun, hrest]
      · have hrest' : rest.isEmpty = false := by simpa using hrest
        have hne : rest ≠ [] := by simpa [List.isEmpty_iff] using hrest
        obtain ⟨h1, h2, h3, h4, h5⟩ := ih (attempt + 1) hne
        exact httpRun_spec_retry_step (Or.inl rfl) hrest' attempt h1 h2 h3 h4 h5
    | .netError =>
      by_cases hrest : rest.isEmpty
      · refine ⟨by simp [httpRun, hrest], by simp [httpRun, hrest], by simp [httpRun, hrest],
          ?_, ?_⟩
        · intro i hi; simp [httpRun, hrest] at hi
        · intro h; simp [httpRun, hrest]
      · have hrest' : rest.isEmpty = false := by simpa using hrest
        have hne : rest ≠ [] := by simpa [List.isEmpty_iff] using hrest
        obtain ⟨h1, h2, h3, h4, h5⟩ := ih (attempt + 1) hne
        exact httpRun_spec_retry_step (Or.inr rfl) hrest' attempt h1 h2 h3 h4 h5

theorem httpRun_all_retryable (outcomes : List AttemptOutcome) :
    ∀ attempt, outcomes ≠ [] →
      (∀ o ∈ outcomes, o = .timeout ∨ o = .netError) →
      (httpRun outcomes attempt).attempts = outcomes.length
      ∧ (httpRun outcomes attempt).hits = [] := by
  induction outcomes with
  | nil => intro _ h; exact absurd rfl h
  | cons o rest ih =>
    intro attempt _ hall
    have ho := hall o (by simp)
    by_cases hrest : rest.isEmpty
    · have : rest = [] := by simpa [List.isEmpty_iff] using hrest
      subst this
      rcases ho with h | h <;> subst h <;> simp [httpRun]
    · have hne : rest ≠ [] := by simpa [List.isEmpty_iff] using hrest
      obtain ⟨ha, hh⟩ := ih (attempt + 1) hne (fun x hx => hall x (by simp [hx]))
      rcases ho with h | h <;> subst h <;>
        simp [httpRun, hrest, ha, hh]

/-- C5: the HTTP transport policy.  At most retries+1 attempts are made, and
with the default ES_HTTP_RETRIES of 2 that is 2 extra attempts; every
non-final attempt failed with a timeout or network-level error (so an
HTTP-level 4xx/5xx response is never retried); an HTTP-level error on the
final attempt made fails the transport with no hits; the sleeps between
attempts are exactly min of half a second times the 1-based attempt number
and 2 seconds; when every attempt fails retryably the full budget is used and
the transport fails; connect and read timeouts are independently configurable
with defaults 5 seconds connect and the caller's 30 seconds read. -/
theorem c5_http_transport_policy (oc : Nat → AttemptOutcome) (retries : Nat) :
    (1 ≤ (httpSearch oc retries).attempts ∧ (httpSearch oc retries).attempts ≤ retries + 1)
    ∧ (httpSearch oc retries).sleepsMs =
        (List.range ((httpSearch oc retries).attempts - 1)).map backoffMs
    ∧ (∀ i, i + 1 < (httpSearch oc retries).attempts →
        oc i = .timeout ∨ oc i = .netError)
    ∧ (oc ((httpSearch oc retries).attempts - 1) = .httpError →
        (httpSearch oc retries).hits = [])
    ∧ ((∀ i, oc i = .timeout ∨ oc i = .netError) →
        (httpSearch oc retries).attempts = retries + 1 ∧ (httpSearch oc retries).hits = [])
    ∧ esHttpRetries none = 2
    ∧ getHttpTimeouts none none httpSearchDefaultRead = (5, 30)
    ∧ (∀ c r d : Rat, getHttpTimeouts (some c) (some r) d = (c, r))
    ∧ (∀ a, backoffMs a = min (500 * (a + 1)) 2000) := by
  have hne : (List.range (retries + 1)).map oc ≠ [] := by
    intro h
    have h2 := congrArg List.length h
    simp at h2
  obtain ⟨h1, h2, h3, h4, h5⟩ := httpRun_spec ((List.range (retries + 1)).map oc) 0 hne
  have hlen : ((List.range (retries + 1)).map oc).length = retries + 1 := by simp
  have hidx : ∀ i, i < retries + 1 →
      ((List.range (retries + 1)).map oc)[i]? = some (oc i) := by
    intro i hi
    rw [List.getElem?_map, List.getElem?_range hi]
    rfl
  have hsearch : httpSearch oc retries = httpRun ((List.range (retries + 1)).map oc) 0 := rfl
  refine ⟨⟨?_, ?_⟩, ?_, ?_, ?_, ?_, rfl, rfl, fun c r d => rfl, fun a => rfl⟩
  · rw [hsearch]; exact h1
  · rw [hsearch]; rw [hlen] at h2; exact h2
  · rw [hsearch]
    rw [h3]
    apply List.map_congr_left
    intro k _
    simp
  · intro i hi
    rw [hsearch] at hi
    have h6 := h4 i hi
    have hlt : i < retries + 1 := by
      rw [hlen] at h2
      omega
    rw [hidx i hlt] at h6
    rcases h6 with h6 | h6
    · exact Or.inl (by injection h6)
    · exact Or.inr (by injection h6)
  · intro h
    rw [hsearch]
    apply h5
    have hlt : (httpRun ((List.range (retries + 1)).map oc) 0).attempts - 1 < retries + 1 := by
      rw [hlen] at h2
      omega
    rw [hidx _ hlt]
    rw [hsearch] at h
    rw [h]
  · intro hall
    have hmem : ∀ o ∈ (List.range (retries + 1)).map oc,
        o = AttemptOutcome.timeout ∨ o = AttemptOutcome.netError := by
      intro o ho
      obtain ⟨i, _, rfl⟩ := List.mem_map.mp ho
      exact hall i
    obtain ⟨ha, hh⟩ := httpRun_all_retryable ((List.range (retries + 1)).map oc) 0 hne hmem
    rw [hsearch]
    rw [hlen] at ha
    exact ⟨ha, hh⟩

/-- The concrete outcome stream of the C5 witness: a timeout on the first
attempt, then an HTTP-level error response. -/
def oc5w : Nat → AttemptOutcome := fun i => if i = 0 then .timeout else .httpError

/-- Witness for c5_http_transport_policy: with default-style retries 2, a
timeout then a 4xx response make exactly two attempts, one 500 millisecond
sleep, and no hits. -/
theorem c5_http_transport_policy_witness :
    (httpSearch oc5w 2).hits = [] ∧ (httpSearch oc5w 2).attempts = 2
    ∧ (httpSearch oc5w 2).sleepsMs = [500] ∧ (oc5w 0 = .timeout ∨ oc5w 0 = .netError) := by
  have h := c5_http_transport_policy oc5w 2
  have ha : (httpSearch oc5w 2).attempts = 2 := by decide
  refine ⟨?_, ha, ?_, ?_⟩
  · apply h.2.2.2.1
    rw [ha]
    rfl
  · rw [h.2.1, ha]
    rfl
  · exact h.2.2.1 0 (by rw [ha]; omega)

/-! ## Server version probe and transport preference
(services.py _detect_es_major_version, _detect_python_es_client_major_version,
and the prefer_http block of list_alerts_for_tenant) -/

/-- What the bounded GET against the source root produced: a network failure,
or a JSON body whose version.number field is absent (None) or a string. -/
inductive ProbeOutcome
  | fail
  | ok (ver : Option String)
deriving DecidableEq, Repr

/-- str(ver).split on dots, first component. -/
def leadingComponent (s : String) : String :=
  String.mk (s.data.takeWhile (fun c => c ≠ '.'))

/-- The function _detect_es_major_version: read version.number from the root document and
take int of the leading dotted component; any failure — unreachable host,
missing or falsy field, unparsable component — yields the default 8. -/
def detectEsMajorVersion : ProbeOutcome → Int
  | .fail => 8
  | .ok none => 8
  | .ok (some v) =>
    if v = "" then 8
    else
      match pyDigitInt (leadingComponent v) with
      | some m => m
      | none => 8

/-- The prefer_http decision of list_alerts_for_tenant: with a configured
host list, probe the server major version and compare against the installed
client library's major version (None when that detection failed); both values
pass a Python truthiness test (nonzero) before the strict comparison. -/
def preferHttpDecision (hosts : List String) (probe : ProbeOutcome)
    (clientMajor : Option Int) : Bool :=
  if hosts.isEmpty then false
  else
    match clientMajor with
    | none => false
    | some c =>
      decide (detectEsMajorVersion probe ≠ 0) && decide (c ≠ 0) &&
        decide (detectEsMajorVersion probe < c)

/-- C6 counterexample: the claim says any version-detection failure leaves the
default of attempting the native transport first, but a failed server probe
is masked into the default major 8, which then participates in the
comparison: with a client library of major 9 the code prefers the HTTP
fallback even though server detection failed. -/
theorem c6_counterexample :
    detectEsMajorVersion .fail = 8
    ∧ preferHttpDecision ["h1"] .fail (some 9) = true := by
  exact ⟨rfl, rfl⟩

/-- C6 (amended): the probe returns the leading numeric component of the
version string on success and 8 on any failure; HTTP is preferred over the
native client exactly when a client major version was detected and both the
client major and the (possibly failure-defaulted) server value are nonzero
with the client strictly newer; a client-detection failure always leaves the
native transport first. -/
theorem c6_version_probe_policy :
    (∀ s m, pyDigitInt (leadingComponent s) = some m →
      detectEsMajorVersion (.ok (some s)) = m)
    ∧ (∀ s, pyDigitInt (leadingComponent s) = none →
      detectEsMajorVersion (.ok (some s)) = 8)
    ∧ detectEsMajorVersion .fail = 8
    ∧ detectEsMajorVersion (.ok none) = 8
    ∧ detectEsMajorVersion (.ok (some "7.17.3")) = 7
    ∧ (∀ hosts probe clientMajor,
        preferHttpDecision hosts probe clientMajor = true ↔
          hosts ≠ [] ∧ ∃ k, clientMajor = some k ∧ k ≠ 0 ∧
            detectEsMajorVersion probe ≠ 0 ∧ detectEsMajorVersion probe < k)
    ∧ (∀ hosts probe, preferHttpDecision hosts probe none = false) := by
  refine ⟨?_, ?_, rfl, rfl, by decide, ?_, ?_⟩
  · intro s m h
    by_cases hs : s = ""
    · subst hs
      simp [leadingComponent, pyDigitInt, strTrim] at h
    · simp [detectEsMajorVersion, hs, h]
  · intro s h
    by_cases hs : s = ""
    · subst hs; rfl
    · simp [detectEsMajorVersion, hs, h]
  · intro hosts probe clientMajor
    constructor
    · intro h
      unfold preferHttpDecision at h
      by_cases hh : hosts.isEmpty
      · simp [hh] at h
      · have hh' : hosts.isEmpty = false := by simpa using hh
        cases hc : clientMajor with
        | none => rw [hc] at h; simp [hh'] at h
        | some k =>
          rw [hc] at h
          simp [hh'] at h
          exact ⟨by simpa [List.isEmpty_iff] using hh, k, rfl, by tauto, by tauto, by tauto⟩
    · rintro ⟨hh, k, rfl, hk, hs, hlt⟩
      have hh' : hosts.isEmpty = false := by simpa [List.isEmpty_iff] using hh
      simp [preferHttpDecision, hh', hk, hs, hlt]
  · intro hosts probe
    unfold preferHttpDecision
    by_cases hh : hosts.isEmpty <;> simp [hh]

/-- Witness for c6_version_probe_policy: the success clause applied to the
dotted version string 7.17.3, and the decision clause at server 7, client
8. -/
theorem c6_version_probe_policy_witness :
    detectEsMajorVersion (.ok (some "7.17.3")) = 7
    ∧ preferHttpDecision ["h1"] (.ok (some "7.17.3")) (some 8) = true := by
  constructor
  · exact c6_version_probe_policy.1 "7.17.3" 7 (by decide)
  · apply (c6_version_probe_policy.2.2.2.2.2.1 ["h1"] (.ok (some "7.17.3")) (some 8)).mpr
    exact ⟨by simp, 8, rfl, by decide, by decide, by decide⟩

/-! ## The retrieval orchestrator (AlertService.list_alerts_for_tenant) -/

/-- ESIntegrationConfig as the orchestrator reads it. -/
structure Cfg where
  enabled : Bool
  hosts : List String
  index : String
deriving DecidableEq, Repr

/-- The world one retrieval runs against: the cache state, the tenant's
config, the bundled mock data, and the outcomes the network would produce
(version probe body, installed client major, whether the native client is
importable and buildable, what its search raises or returns, and what
_http_search returns — the empty list on any of its failures). -/
structure Env where
  dbRows : List Row
  dbReadFails : Bool
  cfg : Option Cfg
  mock : List Doc
  serverProbe : ProbeOutcome
  clientMajor : Option Int
  nativeUsable : Bool
  nativeOutcome : Option (List Doc)
  httpOutcome : List Doc
deriving DecidableEq, Repr

/-- What one retrieval did and returned: the alert list, the provenance tag,
how many network requests were issued, which transports were attempted, and
which documents were passed to the cache upsert. -/
structure FetchTrace where
  alerts : List Doc
  source : String
  networkCalls : Nat
  nativeAttempted : Bool
  httpAttempted : Bool
  upserted : List Doc
deriving DecidableEq, Repr

/-- Postgres ORDER BY timestamp DESC: null timestamps sort first (DESC
defaults to NULLS FIRST), then larger instants. -/
def tsGeb : Option Int → Option Int → Bool
  | none, _ => true
  | some _, none => false
  | some x, some y => decide (y ≤ x)

def rowTsGe (a b : Row) : Prop := tsGeb a.timestamp b.timestamp = true

instance : DecidableRel rowTsGe := fun _ _ => inferInstanceAs (Decidable (_ = true))

instance : IsTotal Row rowTsGe := ⟨by
  intro a b
  unfold rowTsGe tsGeb
  cases a.timestamp <;> cases b.timestamp <;> simp <;> omega⟩

instance : IsTrans Row rowTsGe := ⟨by
  intro a b c hab hbc
  unfold rowTsGe tsGeb at hab hbc ⊢
  rcases ha : a.timestamp with _ | x <;> rcases hb : b.timestamp with _ | y <;>
    rcases hc : c.timestamp with _ | z <;> simp_all <;> omega⟩

/-- The tenant's cached rows ordered by event timestamp descending. -/
def dbReadAll (rows : List Row) (tenant : String) : List Row :=
  (rows.filter (fun r => decide (r.tenant_id = some tenant))).insertionSort rowTsGe

/-- Alert.objects.filter(tenant_id).order_by minus timestamp, first 100. -/
def dbRead (rows : List Row) (tenant : String) : List Row :=
  (dbReadAll rows tenant).take 100

/-- The function _serialize_alert_row: the cached payload with every modelled field
overwritten from the row; fmtTs renders the stored instant back to an ISO
string. -/
def serializeAlertRow (fmtTs : Int → String) (r : Row) : Doc :=
  { r.source_data with
    alert_id := r.alert_id
    tenant_id := r.tenant_id
    timestamp := r.timestamp.map fmtTs
    severity := r.severity
    message := r.message
    source_index := r.source_index
    rule_id := r.rule_id
    title := r.title
    status := r.status
    description := r.description
    category := r.category }

/-- load_mock_alerts filtered by tenant. -/
def mockFetch (env : Env) (tenant : String) : List Doc :=
  env.mock.filter (fun d => decide (d.tenant_id = some tenant))

/-- A trace with no network activity and no upsert. -/
def quietTrace (alerts : List Doc) (source : String) : FetchTrace :=
  { alerts := alerts, source := source, networkCalls := 0,
    nativeAttempted := false, httpAttempted := false, upserted := [] }

/-- The host list the orchestrator works from. -/
def envHosts (env : Env) : List String :=
  match env.cfg with
  | some c => c.hosts
  | none => []

/-- The live-fetch step: probe the version (one GET) and the index mapping
(two GETs) when a host is configured, pick the transport order, try the
native client first unless HTTP is preferred, fall back to HTTP on a native
exception, and fall through to the mock set when HTTP yields nothing.
Successful fetches are best-effort upserted. -/
def liveFetch (env : Env) (tenant : String) : FetchTrace :=
  let hosts := envHosts env
  let probeCalls := if hosts.isEmpty then 0 else 3
  let prefer := preferHttpDecision hosts env.serverProbe env.clientMajor
  if env.nativeUsable && !prefer then
    match env.nativeOutcome with
    | some hits =>
      { alerts := hits, source := "es", networkCalls := probeCalls + 1,
        nativeAttempted := true, httpAttempted := false, upserted := hits }
    | none =>
      if env.httpOutcome.isEmpty then
        { alerts := mockFetch env tenant, source := "mock", networkCalls := probeCalls + 2,
          nativeAttempted := true, httpAttempted := true, upserted := [] }
      else
        { alerts := env.httpOutcome, source := "es-http", networkCalls := probeCalls + 2,
          nativeAttempted := true, httpAttempted := true, upserted := env.httpOutcome }
  else
    if env.httpOutcome.isEmpty then
      { alerts := mockFetch env tenant, source := "mock", networkCalls := probeCalls + 1,
        nativeAttempted := false, httpAttempted := true, upserted := [] }
    else
      { alerts := env.httpOutcome, source := "es-http", networkCalls := probeCalls + 1,
        nativeAttempted := false, httpAttempted := true, upserted := env.httpOutcome }

/-- AlertService.list_alerts_for_tenant: force_mock short-circuits to the
bundled data; force_db reads only the cache (empty on a read failure);
otherwise the cache is authoritative when warm, then the live fetch runs if
the tenant's config exists and is enabled (or forced), and the mock set is
the last resort. -/
def list_alerts_for_tenant (fmtTs : Int → String) (env : Env) (tenant : String)
    (force_es force_mock force_db : Bool) : FetchTrace :=
  if force_mock then quietTrace (mockFetch env tenant) "mock"
  else if force_db then
    if env.dbReadFails then quietTrace [] "db"
    else quietTrace ((dbRead env.dbRows tenant).map (serializeAlertRow fmtTs)) "db"
  else
    let cached := if force_es || env.dbReadFails then [] else dbRead env.dbRows tenant
    if cached.isEmpty then
      match env.cfg with
      | some c =>
        if c.enabled || force_es then liveFetch env tenant
        else quietTrace (mockFetch env tenant) "mock"
      | none => quietTrace (mockFetch env tenant) "mock"
    else quietTrace (cached.map (serializeAlertRow fmtTs)) "db"

theorem dbRead_sorted (rows : List Row) (tenant : String) :
    List.Pairwise rowTsGe (dbRead rows tenant) :=
  List.Pairwise.sublist (List.take_sublist _ _)
    (List.sorted_insertionSort rowTsGe _)

theorem dbRead_top (rows : List Row) (tenant : String) :
    ∀ x ∈ dbRead rows tenant, ∀ y ∈ (dbReadAll rows tenant).drop 100, rowTsGe x y := by
  have hs : List.Pairwise rowTsGe (dbRead rows tenant ++ (dbReadAll rows tenant).drop 100) := by
    rw [dbRead, List.take_append_drop]
    exact List.sorted_insertionSort rowTsGe _
  exact (List.pairwise_append.mp hs).2.2

theorem dbRead_mem (rows : List Row) (tenant : String) :
    ∀ x ∈ dbRead rows tenant, x ∈ rows ∧ x.tenant_id = some tenant := by
  intro x hx
  have h1 : x ∈ dbReadAll rows tenant := List.mem_of_mem_take hx
  have h2 : x ∈ rows.filter (fun r => decide (r.tenant_id = some tenant)) :=
    (List.perm_insertionSort rowTsGe _).mem_iff.mp h1
  have h3 := List.mem_filter.mp h2
  exact ⟨h3.1, by simpa using h3.2⟩

/-- C1: force_db isolation.  For every tenant and cache state, the force_db
retrieval issues no network call, attempts no transport, upserts nothing, is
tagged db, and returns at most 100 rows: the tenant's cached rows ordered by
event timestamp descending (nulls first), truncated to the top 100 — every
returned row dominates every cached row beyond the cut.  A cache read
failure or an empty cache yields the empty list, still tagged db, with no
escalation to the live source. -/
theorem c1_force_db_isolation (fmtTs : Int → String) (env : Env) (tenant : String)
    (force_es : Bool) :
    (list_alerts_for_tenant fmtTs env tenant force_es false true).networkCalls = 0
    ∧ (list_alerts_for_tenant fmtTs env tenant force_es false true).nativeAttempted = false
    ∧ (list_alerts_for_tenant fmtTs env tenant force_es false true).httpAttempted = false
    ∧ (list_alerts_for_tenant fmtTs env tenant force_es false true).upserted = []
    ∧ (list_alerts_for_tenant fmtTs env tenant force_es false true).source = "db"
    ∧ (list_alerts_for_tenant fmtTs env tenant force_es false true).alerts.length ≤ 100
    ∧ (env.dbReadFails = false →
        (list_alerts_for_tenant fmtTs env tenant force_es false true).alerts =
          (dbRead env.dbRows tenant).map (serializeAlertRow fmtTs))
    ∧ List.Pairwise rowTsGe (dbRead env.dbRows tenant)
    ∧ (∀ x ∈ dbRead env.dbRows tenant, x ∈ env.dbRows ∧ x.tenant_id = some tenant)
    ∧ (∀ x ∈ dbRead env.dbRows tenant, ∀ y ∈ (dbReadAll env.dbRows tenant).drop 100,
        rowTsGe x y)
    ∧ (env.dbReadFails = true →
        (list_alerts_for_tenant fmtTs env tenant force_es false true).alerts = [])
    ∧ (env.dbRows.filter (fun r => decide (r.tenant_id = some tenant)) = [] →
        (list_alerts_for_tenant fmtTs env tenant force_es false true).alerts = []) := by
  by_cases hf : env.dbReadFails
  · refine ⟨by simp [list_alerts_for_tenant, hf, quietTrace],
      by simp [list_alerts_for_tenant, hf, quietTrace],
      by simp [list_alerts_for_tenant, hf, quietTrace],
      by simp [list_alerts_for_tenant, hf, quietTrace],
      by simp [list_alerts_for_tenant, hf, quietTrace],
      by simp [list_alerts_for_tenant, hf, quietTrace],
      by intro h; rw [h] at hf; exact absurd hf (by simp),
      dbRead_sorted _ _, dbRead_mem _ _, dbRead_top _ _,
      by intro _; simp [list_alerts_for_tenant, hf, quietTrace],
      by intro _; simp [list_alerts_for_tenant, hf, quietTrace]⟩
  · have hf' : env.dbReadFails = false := by simpa using hf
    refine ⟨by simp [list_alerts_for_tenant, hf', quietTrace],
      by simp [list_alerts_for_tenant, hf', quietTrace],
      by simp [list_alerts_for_tenant, hf', quietTrace],
      by simp [list_alerts_for_tenant, hf', quietTrace],
      by simp [list_alerts_for_tenant, hf', quietTrace],
      ?_,
      by intro _; simp [list_alerts_for_tenant, hf', quietTrace],
      dbRead_sorted _ _, dbRead_mem _ _, dbRead_top _ _,
      by intro h; rw [h] at hf'; exact absurd hf' (by simp),
      ?_⟩
    · have hlen : (dbRead env.dbRows tenant).length ≤ 100 := by
        simpa [dbRead] using List.length_take_le 100 (dbReadAll env.dbRows tenant)
      simp [list_alerts_for_tenant, hf', quietTrace, hlen]
    · intro h
      have hempty : dbRead env.dbRows tenant = [] := by
        simp [dbRead, dbReadAll, h]
      simp [list_alerts_for_tenant, hf', quietTrace, hempty]

/-- A cached row of tenant t1 without an event timestamp. -/
def c1Row1 : Row :=
  docDefaults noTs { (emptyIdDoc "m1") with alert_id := some "w1", tenant_id := some "t1" }
    (some "t1") 0 (some "w1")

/-- A cached row of tenant t1 with an event timestamp. -/
def c1Row2 : Row := { c1Row1 with id := 1, timestamp := some 50, message := some "m2" }

/-- An environment whose cache holds two t1 rows while the live source would
also return data — force_db must ignore the latter. -/
def c1wEnv : Env :=
  { dbRows := [c1Row1, c1Row2]
    dbReadFails := false
    cfg := some ⟨true, ["h1"], "idx"⟩
    mock := [emptyIdDoc "mk"]
    serverProbe := .ok (some "8.1.0")
    clientMajor := some 8
    nativeUsable := true
    nativeOutcome := some [emptyIdDoc "nh"]
    httpOutcome := [emptyIdDoc "hh"] }

/-- Witness for c1_force_db_isolation: a two-row cache for tenant t1 — one
row with a timestamp and one without — read back with force_db against an
environment whose live source would return data, yields the two rows (null
timestamp first) tagged db with zero network calls. -/
theorem c1_force_db_isolation_witness :
    (list_alerts_for_tenant (fun _ => "") c1wEnv "t1" false false true).networkCalls = 0
    ∧ (list_alerts_for_tenant (fun _ => "") c1wEnv "t1" false false true).source = "db"
    ∧ (list_alerts_for_tenant (fun _ => "") c1wEnv "t1" false false true).alerts =
        (dbRead c1wEnv.dbRows "t1").map (serializeAlertRow (fun _ => "")) := by
  have h := c1_force_db_isolation (fun _ => "") c1wEnv "t1" false
  exact ⟨h.1, h.2.2.2.2.1, h.2.2.2.2.2.2.1 rfl⟩

/-- C4 (amended): when the native transport is attempted first and its query
raises, the HTTP transport is attempted; the native transport runs first
whenever it is usable and HTTP is not preferred; but when the version probe
prefers HTTP, the native transport is never attempted — an HTTP failure then
falls through to the static fallback rather than to the untried native
transport. -/
theorem c4_transport_fallback (env : Env) (tenant : String) :
    ((liveFetch env tenant).nativeAttempted = true → env.nativeOutcome = none →
      (liveFetch env tenant).httpAttempted = true)
    ∧ (env.nativeUsable = true →
        preferHttpDecision (envHosts env) env.serverProbe env.clientMajor = false →
        (liveFetch env tenant).nativeAttempted = true)
    ∧ (preferHttpDecision (envHosts env) env.serverProbe env.clientMajor = true →
        (liveFetch env tenant).nativeAttempted = false
        ∧ (liveFetch env tenant).httpAttempted = true
        ∧ (env.httpOutcome = [] → (liveFetch env tenant).source = "mock")) := by
  by_cases hu : env.nativeUsable
  · by_cases hp : preferHttpDecision (envHosts env) env.serverProbe env.clientMajor
    · refine ⟨?_, ?_, ?_⟩
      · intro hn _
        by_cases hh : env.httpOutcome.isEmpty <;>
          simp [liveFetch, hu, hp, hh] at hn ⊢
      · intro _ hpf; rw [hpf] at hp; exact absurd hp (by simp)
      · intro _
        by_cases hh : env.httpOutcome.isEmpty
        · refine ⟨?_, ?_, ?_⟩ <;> simp [liveFetch, hu, hp, hh]
        · refine ⟨?_, ?_, ?_⟩ <;> simp [liveFetch, hu, hp, hh] <;>
            simpa [List.isEmpty_iff] using hh
    · have hp' : preferHttpDecision (envHosts env) env.serverProbe env.clientMajor = false := by
        simpa using hp
      refine ⟨?_, ?_, ?_⟩
      · intro _ hn
        by_cases hh : env.httpOutcome.isEmpty <;>
          simp [liveFetch, hu, hp', hn, hh]
      · intro _ _
        cases hn : env.nativeOutcome <;>
          by_cases hh : env.httpOutcome.isEmpty <;>
            simp [liveFetch, hu, hp', hn, hh]
      · intro hpt; rw [hpt] at hp'; exact absurd hp' (by simp)
  · have hu' : env.nativeUsable = false := by simpa using hu
    refine ⟨?_, ?_, ?_⟩
    · intro hn
      by_cases hh : env.httpOutcome.isEmpty <;>
        simp [liveFetch, hu', hh] at hn ⊢
    · intro huf; rw [huf] at hu'; exact absurd hu' (by simp)
    · intro _
      by_cases hh : env.httpOutcome.isEmpty
      · refine ⟨?_, ?_, ?_⟩ <;> simp [liveFetch, hu', hh]
      · refine ⟨?_, ?_, ?_⟩ <;> simp [liveFetch, hu', hh] <;>
          simpa [List.isEmpty_iff] using hh

/-- The C4 counterexample environment: empty cache, enabled config, server
major 7 against client major 8 (so HTTP is preferred first), a native
transport that would succeed, and an HTTP transport that fails. -/
def env4 : Env :=
  { dbRows := []
    dbReadFails := false
    cfg := some ⟨true, ["h1"], "idx"⟩
    mock := []
    serverProbe := .ok (some "7.0.0")
    clientMajor := some 8
    nativeUsable := true
    nativeOutcome := some [emptyIdDoc "native-hit"]
    httpOutcome := [] }

/-- C4 counterexample: the claim says whichever transport goes first, the
untried transport is attempted when the first fails.  Here HTTP goes first
and fails, the usable native transport would have returned a document, yet it
is never attempted and the call falls through to the static fallback. -/
theorem c4_counterexample :
    (list_alerts_for_tenant (fun _ => "") env4 "t1" false false false).httpAttempted = true
    ∧ (list_alerts_for_tenant (fun _ => "") env4 "t1" false false false).source = "mock"
    ∧ (list_alerts_for_tenant (fun _ => "") env4 "t1" false false false).nativeAttempted = false
    ∧ env4.nativeUsable = true
    ∧ env4.nativeOutcome = some [emptyIdDoc "native-hit"] := by
  exact ⟨rfl, rfl, rfl, rfl, rfl⟩

/-- The C4 witness environment: native goes first (same majors), raises, and
the HTTP transport succeeds. -/
def env4w : Env :=
  { env4 with
    serverProbe := .ok (some "8.1.0")
    nativeOutcome := none
    httpOutcome := [emptyIdDoc "http-hit"] }

/-- Witness for c4_transport_fallback: native attempted first, its exception
escalates to the HTTP transport. -/
theorem c4_transport_fallback_witness :
    (liveFetch env4w "t1").nativeAttempted = true
    ∧ (liveFetch env4w "t1").httpAttempted = true := by
  have h := c4_transport_fallback env4w "t1"
  have hn : (liveFetch env4w "t1").nativeAttempted = true := h.2.1 rfl rfl
  exact ⟨hn, h.1 hn rfl⟩

/-! ## Dashboard aggregation over the alert list
(AlertService.aggregate_dashboard: the in-memory loop and the DB severity
distribution) -/

/-- The raw timestamp value one alert carries under the resolved timestamp
field: absent (or None), a string, or a non-string value as str() renders
it. -/
inductive TsVal
  | null
  | str (s : String)
  | nonStr (rendered : String)
deriving DecidableEq, Repr

/-- The fields of one alert document the aggregation loop reads. -/
structure AggDoc where
  severity : Option String
  ts : TsVal
  message : Option String
deriving DecidableEq, Repr

/-- The components of a parsed datetime that the trend keys use. -/
structure PyDateTime where
  year : Nat
  month : Nat
  day : Nat
  hour : Nat
deriving DecidableEq, Repr

def pad2 (n : Nat) : String := if n < 10 then "0" ++ toString n else toString n

def pad4 (n : Nat) : String :=
  if n < 10 then "000" ++ toString n
  else if n < 100 then "00" ++ toString n
  else if n < 1000 then "0" ++ toString n
  else toString n

/-- strftime %Y-%m-%dT%H. -/
def fmtHour (dt : PyDateTime) : String :=
  pad4 dt.year ++ "-" ++ pad2 dt.month ++ "-" ++ pad2 dt.day ++ "T" ++ pad2 dt.hour

/-- strftime %Y-%m-%d. -/
def fmtDay (dt : PyDateTime) : String :=
  pad4 dt.year ++ "-" ++ pad2 dt.month ++ "-" ++ pad2 dt.day

/-- The hour bucket key of one alert: a missing value buckets under unknown;
a string is parsed (after replacing Z with an offset) and formatted, an
unparsable string bucketing under its first 13 characters; a non-string value
is rendered through str() and an unparsable rendering buckets under unknown.
parse stands for datetime.fromisoformat. -/
def hourKey (parse : String → Option PyDateTime) : TsVal → String
  | .null => "unknown"
  | .str s =>
    match parse (replZ s) with
    | some dt => fmtHour dt
    | none => String.mk (s.data.take 13)
  | .nonStr r =>
    match parse (replZ r) with
    | some dt => fmtHour dt
    | none => "unknown"

/-- The day bucket key, with the unparsable-string prefix cut at 10. -/
def dayKey (parse : String → Option PyDateTime) : TsVal → String
  | .null => "unknown"
  | .str s =>
    match parse (replZ s) with
    | some dt => fmtDay dt
    | none => String.mk (s.data.take 10)
  | .nonStr r =>
    match parse (replZ r) with
    | some dt => fmtDay dt
    | none => "unknown"

/-- The raw severity of a cached row as _severity_to_tier receives it. -/
def sevRaw (r : Row) : RawSev :=
  match r.severity with
  | none => .null
  | some s => .str s

/-- One bucket of the severity-tier histogram over the cache rows. -/
def tierCount (rows : List Row) (t : String) : Nat :=
  rows.countP (fun r => decide (severityToTier (sevRaw r) = t))

theorem sum_count_toFinset (l : List String) :
    ∑ k ∈ l.toFinset, l.count k = l.length := by
  have h := Multiset.toFinset_sum_count_eq (l : Multiset String)
  simpa using h

theorem list_sum_map_add {α : Type} (l : List α) (f g : α → Nat) :
    (l.map (fun x => f x + g x)).sum = (l.map f).sum + (l.map g).sum := by
  induction l with
  | nil => simp
  | cons a t ih => simp [ih]; omega

theorem tier_partition (rows : List Row) :
    (tierNames.map (tierCount rows)).sum = rows.length := by
  induction rows with
  | nil => simp [tierNames, tierCount]
  | cons r rest ih =>
    have hstep : (tierNames.map (tierCount (r :: rest))).sum =
        (tierNames.map (tierCount rest)).sum +
          (tierNames.map (fun t =>
            if severityToTier (sevRaw r) = t then 1 else 0)).sum := by
      rw [← list_sum_map_add]
      apply congrArg
      apply List.map_congr_left
      intro t _
      simp only [tierCount, List.countP_cons]
      by_cases h : severityToTier (sevRaw r) = t <;> simp [h]
    have hone : (tierNames.map (fun t =>
        if severityToTier (sevRaw r) = t then 1 else 0)).sum = 1 := by
      have hmem := severityToTier_mem_tierNames (sevRaw r)
      simp only [tierNames, List.mem_cons, List.not_mem_nil, or_false] at hmem
      rcases hmem with h | h | h | h | h <;> simp only [tierNames, h] <;> decide
    rw [hstep, hone, ih]
    simp

/-- C7 (amended): aggregation totals reconcile.  For every input list the sum
of the hourly (and daily) bucket counts equals the input length, and the sum
across the severity-tier histogram buckets equals the number of rows it
aggregates — no alert is dropped.  Missing timestamps and unparsable
non-string timestamps land under the sentinel unknown key; an unparsable
string timestamp is still counted, but under the key given by its first 13
(hourly) or 10 (daily) characters, not under unknown. -/
theorem c7_aggregation_totals :
    (∀ (parse : String → Option PyDateTime) (alerts : List AggDoc),
      ∑ k ∈ (alerts.map (fun a => hourKey parse a.ts)).toFinset,
        (alerts.map (fun a => hourKey parse a.ts)).count k = alerts.length)
    ∧ (∀ (parse : String → Option PyDateTime) (alerts : List AggDoc),
      ∑ k ∈ (alerts.map (fun a => dayKey parse a.ts)).toFinset,
        (alerts.map (fun a => dayKey parse a.ts)).count k = alerts.length)
    ∧ (∀ rows : List Row, (tierNames.map (tierCount rows)).sum = rows.length)
    ∧ (∀ parse, hourKey parse .null = "unknown" ∧ dayKey parse .null = "unknown")
    ∧ (∀ parse r, parse (replZ r) = none → hourKey parse (.nonStr r) = "unknown"
        ∧ dayKey parse (.nonStr r) = "unknown")
    ∧ (∀ parse s, parse (replZ s) = none →
        hourKey parse (.str s) = String.mk (s.data.take 13)
        ∧ dayKey parse (.str s) = String.mk (s.data.take 10)) := by
  refine ⟨?_, ?_, tier_partition, ?_, ?_, ?_⟩
  · intro parse alerts
    have h := sum_count_toFinset (alerts.map (fun a => hourKey parse a.ts))
    simpa using h
  · intro parse alerts
    have h := sum_count_toFinset (alerts.map (fun a => dayKey parse a.ts))
    simpa using h
  · intro parse; exact ⟨rfl, rfl⟩
  · intro parse r h; exact ⟨by simp [hourKey, h], by simp [dayKey, h]⟩
  · intro parse s h; exact ⟨by simp [hourKey, h], by simp [dayKey, h]⟩

/-- Stands in for datetime.fromisoformat at inputs where CPython raises; it
is applied below only to the literal garbage, which fromisoformat rejects. -/
def isoRejects : String → Option PyDateTime := fun _ => none

/-- C7 counterexample: an alert whose timestamp field holds the unparsable
string garbage is bucketed under the key garbage (its own 13-character
prefix), not under the sentinel unknown the claim requires; it is still
counted, so the totals conjunct survives in the amendment. -/
theorem c7_counterexample :
    hourKey isoRejects (.str "garbage") = "garbage"
    ∧ dayKey isoRejects (.str "garbage") = "garbage"
    ∧ ("garbage" : String) ≠ "unknown" := by
  exact ⟨rfl, rfl, by decide⟩

/-- Witness for c7_aggregation_totals: a two-alert list — one missing
timestamp, one unparsable non-string — has hourly buckets summing to 2, and
both alerts land under unknown. -/
theorem c7_aggregation_totals_witness :
    (∑ k ∈ ([⟨none, .null, none⟩, ⟨none, .nonStr "nan", none⟩] : List AggDoc).map
        (fun a => hourKey isoRejects a.ts) |>.toFinset,
      (([⟨none, .null, none⟩, ⟨none, .nonStr "nan", none⟩] : List AggDoc).map
        (fun a => hourKey isoRejects a.ts)).count k) = 2
    ∧ hourKey isoRejects .null = "unknown"
    ∧ hourKey isoRejects (.nonStr "nan") = "unknown" := by
  refine ⟨?_, (c7_aggregation_totals.2.2.2.1 isoRejects).1,
    (c7_aggregation_totals.2.2.2.2.1 isoRejects "nan" rfl).1⟩
  exact c7_aggregation_totals.1 isoRejects [⟨none, .null, none⟩, ⟨none, .nonStr "nan", none⟩]

/-! ## Top-N message frequency (aggregate_dashboard, message loop and the
sorted-by-count truncation) -/

/-- One step of the message_topN dict: bump an existing key in place or
append a new key (dict insertion order is first-seen order). -/
def bumpMsg : List (String × Nat) → String → List (String × Nat)
  | [], m => [(m, 1)]
  | (k, c) :: rest, m =>
    if k = m then (k, c + 1) :: rest else (k, c) :: bumpMsg rest m

/-- The loop body: count an alert's message only when it is truthy (present
and nonempty). -/
def msgStep (acc : List (String × Nat)) (a : AggDoc) : List (String × Nat) :=
  match a.message with
  | some m => if m = "" then acc else bumpMsg acc m
  | none => acc

/-- The message_topN dict in insertion (first-seen) order. -/
def msgCounts (alerts : List AggDoc) : List (String × Nat) :=
  alerts.foldl msgStep []

/-- A truthy message of one alert, as the loop sees it. -/
def msgOf (a : AggDoc) : Option String :=
  match a.message with
  | some m => if m = "" then none else some m
  | none => none

/-- The key part of the loop body: record a truthy message on first sight. -/
def keyStep (ks : List String) (a : AggDoc) : List String :=
  match msgOf a with
  | some m => if m ∈ ks then ks else ks ++ [m]
  | none => ks

/-- The distinct truthy messages in first-seen order. -/
def firstSeenKeys (alerts : List AggDoc) : List String :=
  alerts.foldl keyStep []

/-- Count-descending comparison; Python's sorted is stable, so the sort keeps
first-seen pairs first among equal counts. -/
def cntGe (a b : String × Nat) : Prop := b.2 ≤ a.2

instance : DecidableRel cntGe := fun a b => inferInstanceAs (Decidable (b.2 ≤ a.2))

instance : IsTotal (String × Nat) cntGe := ⟨fun a b => le_total b.2 a.2⟩

instance : IsTrans (String × Nat) cntGe := ⟨fun _ _ _ hab hbc => le_trans hbc hab⟩

/-- sorted(message_topN.items(), key count, reverse=True) truncated to 20. -/
def topMessages (alerts : List AggDoc) : List (String × Nat) :=
  ((msgCounts alerts).insertionSort cntGe).take 20

/-- a sits at a strictly earlier position than b in l. -/
def precedes {α : Type} (l : List α) (a b : α) : Prop :=
  ∃ i j : Fin l.length, i < j ∧ l.get i = a ∧ l.get j = b

theorem pairwise_precedes {α : Type} (l : List α) : List.Pairwise (precedes l) l := by
  rw [List.pairwise_iff_get]
  intro i j hij
  exact ⟨i, j, hij, rfl, rfl⟩

theorem orderedInsert_pairwise_stable {α : Type} (r : α → α → Prop) [DecidableRel r]
    [IsTotal α r] [IsTrans α r] (P : α → α → Prop) (x : α) :
    ∀ l : List α, List.Pairwise (fun a b => r a b ∧ (r b a → P a b)) l →
      (∀ y ∈ l, P x y) →
      List.Pairwise (fun a b => r a b ∧ (r b a → P a b)) (List.orderedInsert r x l) := by
  intro l
  induction l with
  | nil => intro _ _; simp [List.orderedInsert]
  | cons y ys ih =>
    intro hl hx
    obtain ⟨hy, hys⟩ := List.pairwise_cons.mp hl
    by_cases hr : r x y
    · rw [List.orderedInsert, if_pos hr]
      refine List.pairwise_cons.mpr ⟨?_, hl⟩
      intro z hz
      rcases List.mem_cons.mp hz with rfl | hz2
      · exact ⟨hr, fun _ => hx z (by simp)⟩
      · have hyz := hy z hz2
        exact ⟨IsTrans.trans x y z hr hyz.1, fun _ => hx z (by simp [hz2])⟩
    · rw [List.orderedInsert, if_neg hr]
      refine List.pairwise_cons.mpr ⟨?_, ih hys (fun y2 hy2 => hx y2 (by simp [hy2]))⟩
      intro z hz
      rcases (List.mem_orderedInsert r).mp hz with rfl | hz2
      · exact ⟨(IsTotal.total z y).resolve_left hr, fun h2 => absurd h2 hr⟩
      · exact hy z hz2

theorem insertionSort_pairwise_stable {α : Type} (r : α → α → Prop) [DecidableRel r]
    [IsTotal α r] [IsTrans α r] (P : α → α → Prop) :
    ∀ l : List α, List.Pairwise P l →
      List.Pairwise (fun a b => r a b ∧ (r b a → P a b)) (List.insertionSort r l) := by
  intro l
  induction l with
  | nil => intro _; simp [List.insertionSort]
  | cons x t ih =>
    intro hl
    rw [List.insertionSort]
    obtain ⟨hx, ht⟩ := List.pairwise_cons.mp hl
    apply orderedInsert_pairwise_stable
    · exact ih ht
    · intro y hy
      exact hx y ((List.perm_insertionSort r t).mem_iff.mp hy)

theorem bumpMsg_keys (l : List (String × Nat)) (m : String) :
    (bumpMsg l m).map Prod.fst =
      if m ∈ l.map Prod.fst then l.map Prod.fst else l.map Prod.fst ++ [m] := by
  induction l with
  | nil => simp [bumpMsg]
  | cons a rest ih =>
    obtain ⟨k, c⟩ := a
    by_cases hk : k = m
    · subst hk
      simp [bumpMsg]
    · have hk2 : ¬ m = k := fun h => hk h.symm
      by_cases hm : m ∈ rest.map Prod.fst <;>
        simp [bumpMsg, hk, hk2, hm, ih]

theorem msgStep_keys (acc : List (String × Nat)) (a : AggDoc) :
    (msgStep acc a).map Prod.fst = keyStep (acc.map Prod.fst) a := by
  unfold msgStep keyStep msgOf
  cases a.message with
  | none => rfl
  | some m =>
    by_cases hm : m = ""
    · simp [hm]
    · simp [hm, bumpMsg_keys]

theorem msgCounts_keys (alerts : List AggDoc) :
    ∀ acc : List (String × Nat),
      (alerts.foldl msgStep acc).map Prod.fst =
        alerts.foldl keyStep (acc.map Prod.fst) := by
  induction alerts with
  | nil => intro acc; rfl
  | cons a rest ih =>
    intro acc
    rw [List.foldl_cons, List.foldl_cons, ih (msgStep acc a), msgStep_keys]

theorem msgCounts_keys_firstSeen (alerts : List AggDoc) :
    (msgCounts alerts).map Prod.fst = firstSeenKeys alerts := by
  have h := msgCounts_keys alerts []
  simpa [msgCounts, firstSeenKeys] using h

theorem firstSeen_aux_nodup (alerts : List AggDoc) :
    ∀ ks : List String, ks.Nodup → (alerts.foldl keyStep ks).Nodup := by
  induction alerts with
  | nil => intro ks h; exact h
  | cons a rest ih =>
    intro ks h
    rw [List.foldl_cons]
    apply ih
    cases ha : msgOf a with
    | none => simpa [keyStep, ha] using h
    | some m =>
      by_cases hm : m ∈ ks
      · simpa [keyStep, ha, hm] using h
      · simp only [keyStep, ha, hm, if_false]
        rw [List.nodup_append]
        exact ⟨h, by simp, by simpa [List.disjoint_singleton] using hm⟩

theorem firstSeen_aux_mem (alerts : List AggDoc) :
    ∀ (ks : List String) (x : String),
      x ∈ alerts.foldl keyStep ks ↔ x ∈ ks ∨ x ∈ alerts.filterMap msgOf := by
  induction alerts with
  | nil => intro ks x; simp
  | cons a rest ih =>
    intro ks x
    rw [List.foldl_cons]
    cases ha : msgOf a with
    | none =>
      have hk : keyStep ks a = ks := by simp [keyStep, ha]
      rw [hk, ih]
      simp [List.filterMap_cons, ha]
    | some m =>
      by_cases hm : m ∈ ks
      · have hk : keyStep ks a = ks := by simp [keyStep, ha, hm]
        rw [hk, ih]
        simp only [List.filterMap_cons, ha, List.mem_cons]
        constructor
        · rintro (h | h)
          · exact Or.inl h
          · exact Or.inr (Or.inr h)
        · rintro (h | rfl | h)
          · exact Or.inl h
          · exact Or.inl hm
          · exact Or.inr h
      · have hk : keyStep ks a = ks ++ [m] := by simp [keyStep, ha, hm]
        rw [hk, ih]
        simp only [List.filterMap_cons, ha, List.mem_append, List.mem_singleton,
          List.mem_cons]
        tauto

theorem msgCounts_length (alerts : List AggDoc) :
    (msgCounts alerts).length = (alerts.filterMap msgOf).dedup.length := by
  have hkeys := msgCounts_keys_firstSeen alerts
  have hnodup : ((msgCounts alerts).map Prod.fst).Nodup := by
    rw [hkeys]
    exact firstSeen_aux_nodup alerts [] (by simp)
  have hmem : ∀ x, x ∈ (msgCounts alerts).map Prod.fst ↔ x ∈ alerts.filterMap msgOf := by
    intro x
    rw [hkeys]
    have h := firstSeen_aux_mem alerts [] x
    simpa [firstSeenKeys] using h
  have hperm : ((msgCounts alerts).map Prod.fst).Perm (alerts.filterMap msgOf).dedup := by
    apply List.perm_of_nodup_nodup_toFinset_eq hnodup (List.nodup_dedup _)
    apply Finset.ext
    intro x
    simp only [List.mem_toFinset, List.mem_dedup]
    exact hmem x
  have h1 := hperm.length_eq
  simpa using h1

/-- C8 (amended): the top-N message result has length min 20 of the number of
distinct truthy (nonempty) messages; it is sorted by count descending; among
equal counts, pairs keep the first-seen order of the underlying dict (a
stable sort); and that dict's keys are exactly the distinct truthy messages
in first-seen order.  Alerts whose message is absent or empty are not
counted. -/
theorem c8_top_messages (alerts : List AggDoc) :
    (topMessages alerts).length = min 20 (alerts.filterMap msgOf).dedup.length
    ∧ List.Pairwise (fun a b : String × Nat => b.2 ≤ a.2) (topMessages alerts)
    ∧ List.Pairwise
        (fun a b : String × Nat =>
          b.2 < a.2 ∨ (a.2 = b.2 ∧ precedes (msgCounts alerts) a b))
        (topMessages alerts)
    ∧ (msgCounts alerts).map Prod.fst = firstSeenKeys alerts := by
  refine ⟨?_, ?_, ?_, msgCounts_keys_firstSeen alerts⟩
  · rw [topMessages, List.length_take,
      (List.perm_insertionSort cntGe (msgCounts alerts)).length_eq, msgCounts_length]
  · exact List.Pairwise.sublist (List.take_sublist _ _)
      (List.sorted_insertionSort cntGe (msgCounts alerts))
  · have hstable := insertionSort_pairwise_stable cntGe (precedes (msgCounts alerts))
      (msgCounts alerts) (pairwise_precedes _)
    have himp : List.Pairwise
        (fun a b : String × Nat =>
          b.2 < a.2 ∨ (a.2 = b.2 ∧ precedes (msgCounts alerts) a b))
        ((msgCounts alerts).insertionSort cntGe) := by
      apply hstable.imp
      intro a b hab
      obtain ⟨h1, h2⟩ := hab
      by_cases hba : cntGe b a
      · exact Or.inr ⟨le_antisymm hba h1, h2 hba⟩
      · exact Or.inl (by simpa [cntGe] using hba)
    exact List.Pairwise.sublist (List.take_sublist _ _) himp

/-- C8 counterexample: an alert whose message is the empty string is skipped
by the truthiness test, so the top-messages list is empty although the input
has one distinct message value; the claimed length min 20 1 is 1, not 0. -/
theorem c8_counterexample :
    (topMessages [⟨none, .null, some ""⟩]).length = 0
    ∧ (([⟨none, .null, some ""⟩] : List AggDoc).filterMap AggDoc.message).dedup.length = 1
    ∧ (0 : Nat) ≠ min 20 1 := by
  exact ⟨rfl, rfl, by decide⟩

/-! ## The batch sync task (tasks.py sync_es_alerts_to_db) -/

/-- The db_error message recorded for a failing document (the formatted
identifiers; only the message's presence and position matter to the claims). -/
def errMsgDb (doc : Doc) : String :=
  "db_error alert_id=" ++ doc.alert_id.getD "None" ++ " tenant_id=" ++
    doc.tenant_id.getD "None"

/-- doc_tenant_id: the caller's tenant overrides the document's when given. -/
def tenantOf (tenantArg : Option String) (doc : Doc) : Option String :=
  match tenantArg with
  | none => doc.tenant_id
  | some t => some t

/-- The per-document loop body of sync_es_alerts_to_db: upsert with the
tenant argument overriding the document's tenant when given, count inserts,
updates and skips, and record one error message per failing document. -/
def syncStep (parseTs : String → Option Int) (tenantArg : Option String)
    (st : DB × Nat × Nat × Nat × List String) (doc : Doc) :
    DB × Nat × Nat × Nat × List String :=
  match upsertDocCore parseTs (tenantOf tenantArg doc) st.1 doc with
  | (db2, .created) => (db2, st.2.1 + 1, st.2.2.1, st.2.2.2.1, st.2.2.2.2)
  | (db2, .updated) => (db2, st.2.1, st.2.2.1 + 1, st.2.2.2.1, st.2.2.2.2)
  | (db2, .failed) => (db2, st.2.1, st.2.2.1, st.2.2.2.1 + 1, st.2.2.2.2 ++ [errMsgDb doc])

/-- The mapping one sync invocation returns. -/
structure SyncCounters where
  source : String
  fetched : Nat
  inserted : Nat
  updated : Nat
  skipped : Nat
  errors : List String
deriving DecidableEq, Repr

/-- One tenant's sync: the fetched documents (empty on any fetch failure) go
through the upsert loop; the returned error list is capped to the first 10
messages. -/
def syncSingle (parseTs : String → Option Int) (tenantArg : Option String)
    (src : String) (docs : List Doc) (db : DB) : SyncCounters × DB :=
  if docs.isEmpty then
    ({ source := src, fetched := 0, inserted := 0, updated := 0, skipped := 0,
       errors := [] }, db)
  else
    let st := docs.foldl (syncStep parseTs tenantArg) (db, 0, 0, 0, [])
    ({ source := src, fetched := docs.length, inserted := st.2.1, updated := st.2.2.1,
       skipped := st.2.2.2.1, errors := st.2.2.2.2.take 10 }, st.1)

/-- The mapping the all-tenants mode returns. -/
structure MultiSync where
  source : String
  perTenant : List (String × SyncCounters)
  fetched : Nat
  inserted : Nat
  updated : Nat
  skipped : Nat
  errors : List String
deriving DecidableEq, Repr

/-- The all-tenants loop, tenant by tenant in order with the cache threaded
through (head processed first, so this recursion is the source's
left-to-right loop): totals are summed and every per-tenant error list is
extended onto the total without re-capping; the per-tenant breakdown is
kept. -/
def syncAllGo (parseTs : String → Option Int) (fetchFor : String → List Doc) :
    List String → DB → MultiSync × DB
  | [], db =>
    ({ source := "multi-tenant(cfg)", perTenant := [], fetched := 0, inserted := 0,
       updated := 0, skipped := 0, errors := [] }, db)
  | tid :: rest, db =>
    let one := syncSingle parseTs (some tid) "es-http(cfg)" (fetchFor tid) db
    let acc := syncAllGo parseTs fetchFor rest one.2
    ({ acc.1 with
        perTenant := (tid, one.1) :: acc.1.perTenant
        fetched := one.1.fetched + acc.1.fetched
        inserted := one.1.inserted + acc.1.inserted
        updated := one.1.updated + acc.1.updated
        skipped := one.1.skipped + acc.1.skipped
        errors := one.1.errors ++ acc.1.errors }, acc.2)

/-- sync_es_alerts_to_db with no tenant given and a nonempty enabled set. -/
def syncAll (parseTs : String → Option Int) (enabledTenants : List String)
    (fetchFor : String → List Doc) (db : DB) : MultiSync × DB :=
  syncAllGo parseTs fetchFor enabledTenants db

theorem syncFold_spec (parseTs : String → Option Int) (tenantArg : Option String) :
    ∀ (docs : List Doc) (db : DB) (ins upd skp : Nat) (errs : List String),
      (docs.foldl (syncStep parseTs tenantArg) (db, ins, upd, skp, errs)).2.1
          + (docs.foldl (syncStep parseTs tenantArg) (db, ins, upd, skp, errs)).2.2.1
          + (docs.foldl (syncStep parseTs tenantArg) (db, ins, upd, skp, errs)).2.2.2.1
        = ins + upd + skp + docs.length
      ∧ ∃ newErrs : List String,
          (docs.foldl (syncStep parseTs tenantArg) (db, ins, upd, skp, errs)).2.2.2.2 =
            errs ++ newErrs
          ∧ (docs.foldl (syncStep parseTs tenantArg) (db, ins, upd, skp, errs)).2.2.2.1 =
              skp + newErrs.length := by
  intro docs
  induction docs with
  | nil =>
    intro db ins upd skp errs
    exact ⟨by simp, [], by simp, by simp⟩
  | cons doc rest ih =>
    intro db ins upd skp errs
    rw [List.foldl_cons]
    have hl : (doc :: rest).length = rest.length + 1 := rfl
    rcases hc : upsertDocCore parseTs (tenantOf tenantArg doc) db doc with ⟨db2, outc⟩
    cases outc with
    | created =>
      have hs : syncStep parseTs tenantArg (db, ins, upd, skp, errs) doc =
          (db2, ins + 1, upd, skp, errs) := by
        simp [syncStep, hc]
      rw [hs]
      obtain ⟨h1, newErrs, h2, h3⟩ := ih db2 (ins + 1) upd skp errs
      exact ⟨by omega, newErrs, h2, h3⟩
    | updated =>
      have hs : syncStep parseTs tenantArg (db, ins, upd, skp, errs) doc =
          (db2, ins, upd + 1, skp, errs) := by
        simp [syncStep, hc]
      rw [hs]
      obtain ⟨h1, newErrs, h2, h3⟩ := ih db2 ins (upd + 1) skp errs
      exact ⟨by omega, newErrs, h2, h3⟩
    | failed =>
      have hs : syncStep parseTs tenantArg (db, ins, upd, skp, errs) doc =
          (db2, ins, upd, skp + 1, errs ++ [errMsgDb doc]) := by
        simp [syncStep, hc]
      rw [hs]
      obtain ⟨h1, newErrs, h2, h3⟩ := ih db2 ins upd (skp + 1) (errs ++ [errMsgDb doc])
      refine ⟨by omega, errMsgDb doc :: newErrs, by simpa using h2, ?_⟩
      rw [h3]
      simp only [List.length_cons]
      omega

theorem syncSingle_spec (parseTs : String → Option Int) (tenantArg : Option String)
    (src : String) (docs : List Doc) (db : DB) :
    (syncSingle parseTs tenantArg src docs db).1.errors.length ≤ 10
    ∧ (syncSingle parseTs tenantArg src docs db).1.fetched = docs.length
    ∧ (syncSingle parseTs tenantArg src docs db).1.inserted
        + (syncSingle parseTs tenantArg src docs db).1.updated
        + (syncSingle parseTs tenantArg src docs db).1.skipped = docs.length
    ∧ (syncSingle parseTs tenantArg src docs db).1.source = src
    ∧ ∃ allErrs : List String,
        (syncSingle parseTs tenantArg src docs db).1.errors = allErrs.take 10
        ∧ (syncSingle parseTs tenantArg src docs db).1.skipped = allErrs.length := by
  by_cases hd : docs.isEmpty
  · have hnil : docs = [] := by simpa [List.isEmpty_iff] using hd
    subst hnil
    exact ⟨by simp [syncSingle], by simp [syncSingle], by simp [syncSingle],
      by simp [syncSingle], [], by simp [syncSingle], by simp [syncSingle]⟩
  · have hd' : docs.isEmpty = false := by simpa using hd
    obtain ⟨h1, newErrs, h2, h3⟩ := syncFold_spec parseTs tenantArg docs db 0 0 0 []
    have hone : syncSingle parseTs tenantArg src docs db =
        ({ source := src, fetched := docs.length,
           inserted := (docs.foldl (syncStep parseTs tenantArg) (db, 0, 0, 0, [])).2.1,
           updated := (docs.foldl (syncStep parseTs tenantArg) (db, 0, 0, 0, [])).2.2.1,
           skipped := (docs.foldl (syncStep parseTs tenantArg) (db, 0, 0, 0, [])).2.2.2.1,
           errors := (docs.foldl (syncStep parseTs tenantArg) (db, 0, 0, 0, [])).2.2.2.2.take 10 },
         (docs.foldl (syncStep parseTs tenantArg) (db, 0, 0, 0, [])).1) := by
      simp [syncSingle, hd']
    rw [hone]
    refine ⟨?_, rfl, by simpa using h1, rfl, newErrs, ?_, by simpa using h3⟩
    · simp only [List.length_take]
      omega
    · simp only
      rw [h2]
      simp

theorem syncAllGo_spec (parseTs : String → Option Int) (fetchFor : String → List Doc) :
    ∀ (tenants : List String) (db : DB),
      (syncAllGo parseTs fetchFor tenants db).1.perTenant.map Prod.fst = tenants
      ∧ (syncAllGo parseTs fetchFor tenants db).1.fetched =
          ((syncAllGo parseTs fetchFor tenants db).1.perTenant.map
            (fun p => p.2.fetched)).sum
      ∧ (syncAllGo parseTs fetchFor tenants db).1.inserted =
          ((syncAllGo parseTs fetchFor tenants db).1.perTenant.map
            (fun p => p.2.inserted)).sum
      ∧ (syncAllGo parseTs fetchFor tenants db).1.updated =
          ((syncAllGo parseTs fetchFor tenants db).1.perTenant.map
            (fun p => p.2.updated)).sum
      ∧ (syncAllGo parseTs fetchFor tenants db).1.skipped =
          ((syncAllGo parseTs fetchFor tenants db).1.perTenant.map
            (fun p => p.2.skipped)).sum
      ∧ (syncAllGo parseTs fetchFor tenants db).1.errors =
          ((syncAllGo parseTs fetchFor tenants db).1.perTenant.map
            (fun p => p.2.errors)).join
      ∧ (∀ p ∈ (syncAllGo parseTs fetchFor tenants db).1.perTenant,
          p.2.errors.length ≤ 10)
      ∧ (syncAllGo parseTs fetchFor tenants db).1.source = "multi-tenant(cfg)" := by
  intro tenants
  induction tenants with
  | nil =>
    intro db
    refine ⟨rfl, rfl, rfl, rfl, rfl, rfl, ?_, rfl⟩
    intro p hp
    simp [syncAllGo] at hp
  | cons tid rest ih =>
    intro db
    obtain ⟨g1, g2, g3, g4, g5, g6, g7, g8⟩ :=
      ih (syncSingle parseTs (some tid) "es-http(cfg)" (fetchFor tid) db).2
    have hgo : syncAllGo parseTs fetchFor (tid :: rest) db =
        ({ (syncAllGo parseTs fetchFor rest
              (syncSingle parseTs (some tid) "es-http(cfg)" (fetchFor tid) db).2).1 with
            perTenant := (tid, (syncSingle parseTs (some tid) "es-http(cfg)"
                (fetchFor tid) db).1) ::
              (syncAllGo parseTs fetchFor rest
                (syncSingle parseTs (some tid) "es-http(cfg)" (fetchFor tid) db).2).1.perTenant
            fetched := (syncSingle parseTs (some tid) "es-http(cfg)"
                (fetchFor tid) db).1.fetched +
              (syncAllGo parseTs fetchFor rest
                (syncSingle parseTs (some tid) "es-http(cfg)" (fetchFor tid) db).2).1.fetched
            inserted := (syncSingle parseTs (some tid) "es-http(cfg)"
                (fetchFor tid) db).1.inserted +
              (syncAllGo parseTs fetchFor rest
                (syncSingle parseTs (some tid) "es-http(cfg)" (fetchFor tid) db).2).1.inserted
            updated := (syncSingle parseTs (some tid) "es-http(cfg)"
                (fetchFor tid) db).1.updated +
              (syncAllGo parseTs fetchFor rest
                (syncSingle parseTs (some tid) "es-http(cfg)" (fetchFor tid) db).2).1.updated
            skipped := (syncSingle parseTs (some tid) "es-http(cfg)"
                (fetchFor tid) db).1.skipped +
              (syncAllGo parseTs fetchFor rest
                (syncSingle parseTs (some tid) "es-http(cfg)" (fetchFor tid) db).2).1.skipped
            errors := (syncSingle parseTs (some tid) "es-http(cfg)"
                (fetchFor tid) db).1.errors ++
              (syncAllGo parseTs fetchFor rest
                (syncSingle parseTs (some tid) "es-http(cfg)" (fetchFor tid) db).2).1.errors },
         (syncAllGo parseTs fetchFor rest
            (syncSingle parseTs (some tid) "es-http(cfg)" (fetchFor tid) db).2).2) := rfl
    rw [hgo]
    refine ⟨by simpa using g1, by simpa using g2, by simpa using g3, by simpa using g4,
      by simpa using g5, by simp [g6], ?_, g8⟩
    intro p hp
    simp only [List.mem_cons] at hp
    rcases hp with rfl | hp
    · exact (syncSingle_spec parseTs (some tid) "es-http(cfg)" (fetchFor tid) db).1
    · exact g7 p hp

/-- C9 (amended): every sync invocation returns a mapping with fetched,
inserted, updated and skipped counters (one error message is recorded per
skipped document) and, for a single tenant, an error list capped to the first
10 messages.  With no tenant given, every enabled tenant's configuration is
iterated in order, the per-tenant counters are summed into the totals and the
per-tenant breakdown is preserved; but the aggregated error list is the
concatenation of the per-tenant capped lists without re-capping, so it is
bounded by 10 per enabled tenant rather than by 10 overall. -/
theorem c9_sync_counters (parseTs : String → Option Int) :
    (∀ (tenantArg : Option String) (src : String) (docs : List Doc) (db : DB),
      (syncSingle parseTs tenantArg src docs db).1.errors.length ≤ 10
      ∧ (syncSingle parseTs tenantArg src docs db).1.fetched = docs.length
      ∧ (syncSingle parseTs tenantArg src docs db).1.inserted
          + (syncSingle parseTs tenantArg src docs db).1.updated
          + (syncSingle parseTs tenantArg src docs db).1.skipped = docs.length
      ∧ ∃ allErrs : List String,
          (syncSingle parseTs tenantArg src docs db).1.errors = allErrs.take 10
          ∧ (syncSingle parseTs tenantArg src docs db).1.skipped = allErrs.length)
    ∧ (∀ (fetchFor : String → List Doc) (tenants : List String) (db : DB),
      (syncAll parseTs tenants fetchFor db).1.perTenant.map Prod.fst = tenants
      ∧ (syncAll parseTs tenants fetchFor db).1.fetched =
          ((syncAll parseTs tenants fetchFor db).1.perTenant.map
            (fun p => p.2.fetched)).sum
      ∧ (syncAll parseTs tenants fetchFor db).1.inserted =
          ((syncAll parseTs tenants fetchFor db).1.perTenant.map
            (fun p => p.2.inserted)).sum
      ∧ (syncAll parseTs tenants fetchFor db).1.updated =
          ((syncAll parseTs tenants fetchFor db).1.perTenant.map
            (fun p => p.2.updated)).sum
      ∧ (syncAll parseTs tenants fetchFor db).1.skipped =
          ((syncAll parseTs tenants fetchFor db).1.perTenant.map
            (fun p => p.2.skipped)).sum
      ∧ (syncAll parseTs tenants fetchFor db).1.errors =
          ((syncAll parseTs tenants fetchFor db).1.perTenant.map
            (fun p => p.2.errors)).join
      ∧ (∀ p ∈ (syncAll parseTs tenants fetchFor db).1.perTenant,
          p.2.errors.length ≤ 10)) := by
  constructor
  · intro tenantArg src docs db
    obtain ⟨h1, h2, h3, _, h5⟩ := syncSingle_spec parseTs tenantArg src docs db
    exact ⟨h1, h2, h3, h5⟩
  · intro fetchFor tenants db
    obtain ⟨g1, g2, g3, g4, g5, g6, g7, _⟩ := syncAllGo_spec parseTs fetchFor tenants db
    exact ⟨g1, g2, g3, g4, g5, g6, g7⟩

/-- A document whose write raises a database error. -/
def badDoc : Doc := { (emptyIdDoc "bad") with alert_id := none, dbFails := true }

/-- A fetch returning 11 failing documents for every tenant. -/
def c9Fetch : String → List Doc := fun _ => List.replicate 11 badDoc

/-- C9 counterexample: with two enabled tenants whose batches each fail on 11
documents, each per-tenant error list is capped to 10, but the returned
all-tenants mapping concatenates them into 20 error messages — the claimed
overall cap of 10 does not hold for the multi-tenant return value. -/
theorem c9_counterexample :
    (syncAll noTs ["a", "b"] c9Fetch emptyDB).1.errors.length = 20
    ∧ ¬ (syncAll noTs ["a", "b"] c9Fetch emptyDB).1.errors.length ≤ 10 := by
  have h : (syncAll noTs ["a", "b"] c9Fetch emptyDB).1.errors.length = 20 := by rfl
  exact ⟨h, by rw [h]; omega⟩

/-- Witness for c9_sync_counters: one tenant with 11 failing documents gets
fetched 11, skipped 11 and an error list capped at 10; the per-tenant
breakdown entry satisfies the cap. -/
theorem c9_sync_counters_witness :
    (syncSingle noTs (some "a") "es-http(cfg)" (c9Fetch "a") emptyDB).1.errors.length ≤ 10
    ∧ (syncSingle noTs (some "a") "es-http(cfg)" (c9Fetch "a") emptyDB).1.fetched = 11
    ∧ (syncAll noTs ["a"] c9Fetch emptyDB).1.perTenant.map Prod.fst = ["a"]
    ∧ ∀ p ∈ (syncAll noTs ["a"] c9Fetch emptyDB).1.perTenant, p.2.errors.length ≤ 10 := by
  have h1 := (c9_sync_counters noTs).1 (some "a") "es-http(cfg)" (c9Fetch "a") emptyDB
  have h2 := (c9_sync_counters noTs).2 c9Fetch ["a"] emptyDB
  refine ⟨h1.1, ?_, h2.1, h2.2.2.2.2.2.2⟩
  rw [h1.2.1]
  rfl

end SIEM
